import Mathlib

/-!
Verification development for the semantic relevance layer of the
sales-assistant repository (`app/semantic_search.py`, `app/utils.py`).

Python strings are modelled as Lean `String`s; index arithmetic
(`str.find`, slicing) is carried out on the underlying `List Char`.
Vectors of floats are modelled as `List ℝ`; the external sentence
transformer `model.encode` is an explicit function parameter.
-/

namespace SalesAssistant

/-- Python `t[a:b]` on a character list (clamping semantics match because
`take`/`drop` clamp the same way Python slices do for `0 ≤ a ≤ b`). -/
def sliceL (t : List Char) (a b : Nat) : List Char :=
  (t.take b).drop a

/-- Left-trim of Python `str.strip` (whitespace characters). -/
def trimLeftL (l : List Char) : List Char :=
  l.dropWhile Char.isWhitespace

/-- Python `str.strip()`: drop leading and trailing whitespace. -/
def trimL (l : List Char) : List Char :=
  ((trimLeftL l).reverse.dropWhile Char.isWhitespace).reverse

/-- Python `str.strip()` at the string level. -/
def pyStrip (s : String) : String :=
  String.mk (trimL s.toList)

/-- Fuel-driven worker for `splitOnL` (the fuel, at least the length of
the remaining text plus one, makes the recursion structural). -/
def splitOnAuxL (sep : List Char) : Nat → List Char → List Char →
    List (List Char)
  | 0, l, acc => [acc.reverse ++ l]
  | fuel + 1, l, acc =>
    match l with
    | [] => [acc.reverse]
    | c :: rest =>
      if sep.isPrefixOf (c :: rest) then
        acc.reverse :: splitOnAuxL sep fuel ((c :: rest).drop sep.length) []
      else
        splitOnAuxL sep fuel rest (c :: acc)

/-- Python `s.split(sep)` for nonempty `sep`: split on every
non-overlapping occurrence, keeping empty fragments. -/
def splitOnL (sep l : List Char) : List (List Char) :=
  splitOnAuxL sep (l.length + 1) l []

/-- Fuel-driven worker for `replaceL`. -/
def replaceAuxL (pat rep : List Char) : Nat → List Char → List Char
  | 0, l => l
  | fuel + 1, l =>
    match l with
    | [] => []
    | c :: rest =>
      if pat.isPrefixOf (c :: rest) then
        rep ++ replaceAuxL pat rep fuel ((c :: rest).drop pat.length)
      else
        c :: replaceAuxL pat rep fuel rest

/-- Python `s.replace(pat, rep)` for nonempty `pat`: replace every
non-overlapping occurrence, scanning left to right. -/
def replaceL (l pat rep : List Char) : List Char :=
  if pat = [] then l else replaceAuxL pat rep (l.length + 1) l

/-- Python `s.lower()` (ASCII; the fixed comparison vocabulary is
ASCII-only). -/
def pyLower (s : String) : String :=
  String.mk (s.toList.map Char.toLower)

/-- Index of the first position of `t` at which `pat` occurs (as a
contiguous block), if any.  Mirrors Python `t.find(pat)` for nonempty
`pat` (Python returns -1 for "absent"; we return `none`). -/
def firstMatch (pat : List Char) : List Char → Option Nat
  | [] => if pat.isPrefixOf ([] : List Char) then some 0 else none
  | c :: rest =>
    if pat.isPrefixOf (c :: rest) then some 0
    else (firstMatch pat rest).map (· + 1)

/-- Python `t.find(pat, start)` for nonempty `pat`: the least index
`≥ start` at which `pat` occurs in `t`, if any. -/
def pyFindFrom (t pat : List Char) (start : Nat) : Option Nat :=
  (firstMatch pat (t.drop start)).map (· + start)

/-- The eight section markers enumerated in `extract_section`
(`app/semantic_search.py`, lines 43-45). -/
def markersList : List (List Char) :=
  ["COMPANY NAME:".toList, "COMPANY DESCRIPTION:".toList,
   "MAIN HEADINGS:".toList, "ABOUT/MISSION:".toList,
   "LEADERSHIP INFORMATION:".toList, "JOB POSTINGS".toList,
   "FINANCIAL INFORMATION:".toList, "MAIN CONTENT:".toList]

/-- The running minimum over the marker list of the first occurrence
index (from `contentStart`) of every marker other than
`sectionMarker`: the `next_marker_idx` loop of `extract_section`
(lines 42-51), which keeps the smallest found index. -/
def nextMarkerIdx (text sectionMarker : List Char) (contentStart : Nat) :
    Option Nat :=
  markersList.foldl
    (fun acc m =>
      if m = sectionMarker then acc
      else
        match pyFindFrom text m contentStart with
        | none => acc
        | some idx =>
          match acc with
          | none => some idx
          | some cur => if idx < cur then some idx else acc)
    none

/-- Core of `extract_section` (`app/semantic_search.py`, lines 27-58) on
character lists. -/
def extractSectionCore (text marker : List Char) : List Char :=
  if text = [] ∨ marker = [] then []
  else
    match pyFindFrom text marker 0 with
    | none => []
    | some startIdx =>
      match pyFindFrom text ['\n'] startIdx with
      | none => []
      | some contentStart =>
        match nextMarkerIdx text marker contentStart with
        | none => trimL (text.drop contentStart)
        | some nmi => trimL (sliceL text contentStart nmi)

/-- `extract_section(text, section_marker)` from
`app/semantic_search.py`. -/
def extract_section (text sectionMarker : String) : String :=
  String.mk (extractSectionCore text.toList sectionMarker.toList)

/-- Dot product of two float vectors (`np.dot` on equal-length vectors;
for unequal lengths `zipWith` truncates, which we only use under
equal-length hypotheses). -/
def dotL (a b : List ℝ) : ℝ :=
  (List.zipWith (· * ·) a b).sum

/-- Euclidean (l2) norm of a vector, as used by
`sklearn.preprocessing.normalize`. -/
noncomputable def norm2 (a : List ℝ) : ℝ :=
  Real.sqrt (dotL a a)

/-- `calculate_similarity` (`app/semantic_search.py`, lines 13-24).
Empty inputs short-circuit to `0.0`.  Otherwise
`sklearn.metrics.pairwise.cosine_similarity` l2-normalizes each row —
replacing a zero row norm by 1 (`sklearn.preprocessing.normalize`) —
and takes the dot product, i.e. `dot a b / (n₁ * n₂)` with each `nᵢ`
the norm guarded against zero. -/
noncomputable def calculate_similarity (embedding1 embedding2 : List ℝ) : ℝ :=
  if embedding1 = [] ∨ embedding2 = [] then 0
  else
    let n1 := if norm2 embedding1 = 0 then 1 else norm2 embedding1
    let n2 := if norm2 embedding2 = 0 then 1 else norm2 embedding2
    dotL embedding1 embedding2 / (n1 * n2)

/-- The company-data dictionary as consumed by the search functions:
`content`, `press_content`, and the `embeddings` mapping (a Python
dict, modelled as an insertion-ordered association list). -/
structure CompanyData where
  content : String
  press_content : String
  embeddings : List (String × List ℝ)

/-- One value of the result mapping of `search_with_embeddings`:
`{"score": ..., "content": ...}`. -/
structure SearchResult where
  score : ℝ
  content : String

/-- The `elif` chain of `search_with_embeddings` (lines 86-107) that
re-derives the display content for a matched section. -/
def sectionContent (company_data : CompanyData) (section_name : String) :
    String :=
  if section_name = "company_description" then
    extract_section company_data.content "COMPANY DESCRIPTION:"
  else if section_name = "about" then
    extract_section company_data.content "ABOUT/MISSION:"
  else if section_name = "leadership" then
    extract_section company_data.content "LEADERSHIP INFORMATION:"
  else if section_name = "jobs" then
    extract_section company_data.content "JOB POSTINGS"
  else if section_name = "financial" then
    extract_section company_data.content "FINANCIAL INFORMATION:"
  else if section_name = "main_content" then
    extract_section company_data.content "MAIN CONTENT:"
  else if section_name = "press" then
    company_data.press_content
  else ""

/-- `search_with_embeddings(query, company_data, threshold)`
(`app/semantic_search.py`, lines 61-114).  The external sentence
transformer is the explicit parameter `encode`; the result dictionary
is the association list of sections whose similarity clears the
threshold, in embedding-map order. -/
noncomputable def search_with_embeddings (encode : String → List ℝ)
    (query : String) (company_data : CompanyData) (threshold : ℝ) :
    List (String × SearchResult) :=
  company_data.embeddings.filterMap fun p =>
    let similarity := calculate_similarity (encode query) p.2
    if similarity ≥ threshold then
      some (p.1, { score := similarity
                   content := sectionContent company_data p.1 })
    else none

/-- Snippet derivation in `find_product_category_matches`
(lines 133-144): split the content on periods, trim, keep fragments
longer than 10 characters, join the first three with `". "`; fall back
to the first 200 characters when nothing qualifies. -/
def makeSnippet (content : String) : String :=
  let sentences := (splitOnL ".".toList content.toList).map String.mk
  let relevant := (sentences.map pyStrip).filter fun s =>
    decide (10 < s.length)
  if relevant ≠ [] then String.intercalate ". " (relevant.take 3)
  else content.take 200

/-- One bucket entry of `find_product_category_matches`:
`{"section": ..., "score": ..., "snippet": ...}`. -/
structure MatchEntry where
  section_name : String
  score : ℝ
  snippet : String

/-- The three relevance buckets returned by
`find_product_category_matches`. -/
structure CategoryMatches where
  high_relevance : List MatchEntry
  medium_relevance : List MatchEntry
  low_relevance : List MatchEntry

/-- `find_product_category_matches(product_category, company_data)`
(`app/semantic_search.py`, lines 117-165).  The single loop with an
`if score >= 0.65 / elif score >= 0.5 / else` classification appends
each result to exactly one bucket; per bucket this is the order
preserving `filterMap` below. -/
noncomputable def find_product_category_matches (encode : String → List ℝ)
    (product_category : String) (company_data : CompanyData) :
    CategoryMatches :=
  let search_results :=
    search_with_embeddings encode product_category company_data 0.4
  { high_relevance := search_results.filterMap fun p =>
      if p.2.score ≥ 0.65 then
        some ⟨p.1, p.2.score, makeSnippet p.2.content⟩
      else none
    medium_relevance := search_results.filterMap fun p =>
      if ¬ p.2.score ≥ 0.65 ∧ p.2.score ≥ 0.5 then
        some ⟨p.1, p.2.score, makeSnippet p.2.content⟩
      else none
    low_relevance := search_results.filterMap fun p =>
      if ¬ p.2.score ≥ 0.65 ∧ ¬ p.2.score ≥ 0.5 then
        some ⟨p.1, p.2.score, makeSnippet p.2.content⟩
      else none }

/-- Substring containment, Python's `pat in s`. -/
def strContains (s pat : String) : Bool :=
  (firstMatch pat.toList s.toList).isSome

/-- The fixed comparison-phrase vocabulary of
`find_competitor_semantic_mentions` (lines 188-191). -/
def comparisonPhrases : List String :=
  ["alternative", "competitor", "similar", "compared",
   "versus", "vs", "unlike", "like", "better than"]

/-- One entry of the `find_competitor_semantic_mentions` result list:
`{"section": ..., "score": ..., "context": ...}`. -/
structure Mention where
  section_name : String
  score : ℝ
  context : String

/-- The sentence list a section's content is split into in
`find_competitor_semantic_mentions` (line 183):
`content.replace('\n', '. ').split('.')`. -/
def mentionSentences (content : String) : List String :=
  (splitOnL ".".toList (replaceL content.toList "\n".toList ". ".toList)).map
    String.mk

/-- `find_competitor_semantic_mentions(competitor_name, company_data)`
(`app/semantic_search.py`, lines 168-200). -/
noncomputable def find_competitor_semantic_mentions
    (encode : String → List ℝ) (competitor_name : String)
    (company_data : CompanyData) : List Mention :=
  let search_results :=
    search_with_embeddings encode
      ("companies like " ++ competitor_name ++ " or similar to " ++
        competitor_name)
      company_data 0.6
  search_results.flatMap fun p =>
    ((mentionSentences p.2.content).map pyStrip).filterMap fun s =>
      if 20 < s.length ∧
          (comparisonPhrases.any fun phrase =>
            strContains (pyLower s) phrase) = true then
        some ⟨p.1, p.2.score, s⟩
      else none

/-- Model of `re.search(lit + "(.*?)(?=" + stop + ")", content, re.DOTALL)`
for a literal prefix `lit` and a literal lookahead `stop`: the match, if
any, sits at the first occurrence of `lit`, and the lazy capture extends
to the first occurrence of `stop` at or after the capture start.
(If no `stop` occurs after the first `lit` occurrence, none occurs after
any later one either, so the whole pattern fails.) -/
def regexCaptureLitStop (content lit stop : List Char) : Option (List Char) :=
  match pyFindFrom content lit 0 with
  | none => none
  | some p =>
    match pyFindFrom content stop (p + lit.length) with
    | none => none
    | some r => some (sliceL content (p + lit.length) r)

/-- Model of `re.search(lit + "(.*?)$", content, re.DOTALL)` (no
`re.MULTILINE`): the lazy capture stops at the earliest `$` position,
which is just before a final trailing newline when there is one, and
the end of the string otherwise. -/
def regexCaptureLitEnd (content lit : List Char) : Option (List Char) :=
  match pyFindFrom content lit 0 with
  | none => none
  | some p =>
    let tail := content.drop (p + lit.length)
    some (if tail.getLast? = some '\n' then tail.dropLast else tail)

/-- The `company_description` capture of `generate_structured_embeddings`
(`app/utils.py`, line 525): `COMPANY DESCRIPTION: (.*?)(?=\n\n)`. -/
def capDesc (content : String) : Option String :=
  (regexCaptureLitStop content.toList "COMPANY DESCRIPTION: ".toList
    "\n\n".toList).map String.mk

/-- The `about` capture (line 526):
`ABOUT/MISSION:\n(.*?)(?=\n\nLEADERSHIP INFORMATION)`. -/
def capAbout (content : String) : Option String :=
  (regexCaptureLitStop content.toList "ABOUT/MISSION:\n".toList
    "\n\nLEADERSHIP INFORMATION".toList).map String.mk

/-- The `leadership` capture (line 527):
`LEADERSHIP INFORMATION:\n(.*?)(?=\n\nJOB POSTINGS)`. -/
def capLead (content : String) : Option String :=
  (regexCaptureLitStop content.toList "LEADERSHIP INFORMATION:\n".toList
    "\n\nJOB POSTINGS".toList).map String.mk

/-- The `jobs` capture (line 528):
`JOB POSTINGS \(TECH STACK INDICATORS\):\n(.*?)(?=\n\nFINANCIAL INFORMATION)`. -/
def capJobs (content : String) : Option String :=
  (regexCaptureLitStop content.toList
    "JOB POSTINGS (TECH STACK INDICATORS):\n".toList
    "\n\nFINANCIAL INFORMATION".toList).map String.mk

/-- The `financial` capture (line 529):
`FINANCIAL INFORMATION:\n(.*?)(?=\n\nMAIN CONTENT)`. -/
def capFin (content : String) : Option String :=
  (regexCaptureLitStop content.toList "FINANCIAL INFORMATION:\n".toList
    "\n\nMAIN CONTENT".toList).map String.mk

/-- The `main_content` capture (line 530): `MAIN CONTENT:\n(.*?)$`. -/
def capMain (content : String) : Option String :=
  (regexCaptureLitEnd content.toList "MAIN CONTENT:\n".toList).map String.mk

/-- A value of the `sections` dictionary in
`generate_structured_embeddings` (lines 524-532): six regex match-or-None
entries plus the raw `press_content` string for `press`. -/
inductive SecVal where
  | regexMatch (m : Option String)
  | pressStr (s : String)

/-- The per-entry computation
`section_match.group(1).strip() if section_match else ""` (lines 536-537).
For `press` the stored value is the plain `press_content` string, so a
non-empty (truthy) value hits `.group(1)` on a `str` and raises
`AttributeError`, which the surrounding `try` turns into the error map. -/
def secContentOf : SecVal → Except String String
  | .regexMatch m => .ok ((m.map pyStrip).getD "")
  | .pressStr s =>
    if s = "" then .ok ""
    else .error "'str' object has no attribute 'group'"

/-- The `sections` dictionary (lines 524-532), in insertion order. -/
def sectionsListOf (content press_content : String) :
    List (String × SecVal) :=
  [("company_description", .regexMatch (capDesc content)),
   ("about", .regexMatch (capAbout content)),
   ("leadership", .regexMatch (capLead content)),
   ("jobs", .regexMatch (capJobs content)),
   ("financial", .regexMatch (capFin content)),
   ("main_content", .regexMatch (capMain content)),
   ("press", .pressStr press_content)]

/-- The section loop of `generate_structured_embeddings` (lines 535-547):
only substantial content (non-empty and longer than 50 characters) is
embedded, after truncation to 5000 characters.  Any exception — from the
`press` `.group(1)` slip or from the backend `encode` — aborts the loop. -/
def sectionLoop {V : Type} (encode : String → Except String V)
    (press_content : String) :
    List (String × SecVal) → List (String × V) →
    Except String (List (String × V))
  | [], acc => .ok acc
  | (name, sv) :: rest, acc => do
    let sc0 ← secContentOf sv
    let sc := if name = "press" then press_content else sc0
    if sc ≠ "" ∧ 50 < sc.length then
      let sc := if 5000 < sc.length then sc.take 5000 else sc
      let v ← encode sc
      sectionLoop encode press_content rest (acc ++ [(name, v)])
    else
      sectionLoop encode press_content rest acc

/-- The profile input consumed by the builder:
`company_data.get("content", "")` and
`company_data.get("press_content", "")`. -/
structure ProfileInput where
  content : String
  press_content : String

/-- The body of the `try` block of `generate_structured_embeddings`
(lines 515-560): section loop, then the `combined` entry built from the
raw (unstripped) `company_description` and `about` captures joined by a
single space — a string that always contains that space and is therefore
never empty, so `combined` is always encoded. -/
def buildRun {V : Type} (encode : String → Except String V)
    (pi : ProfileInput) : Except String (List (String × V)) := do
  let acc ← sectionLoop encode pi.press_content
    (sectionsListOf pi.content pi.press_content) []
  let combined_text :=
    ((capDesc pi.content).getD "") ++ " " ++ ((capAbout pi.content).getD "")
  if combined_text ≠ "" then
    let v ← encode (combined_text.take 5000)
    .ok (acc ++ [("combined", v)])
  else
    .ok acc

/-- A value of the dictionary returned by
`generate_structured_embeddings`: either a vector or (under the `error`
key) the exception message. -/
inductive EmbVal (V : Type) where
  | vec (v : V)
  | msg (s : String)
deriving DecidableEq

/-- `generate_structured_embeddings(company_data)` (`app/utils.py`,
lines 513-564): the `try` body on success, and
`{"error": str(e)}` when any exception is raised inside it. -/
def generate_structured_embeddings {V : Type}
    (encode : String → Except String V) (company_data : ProfileInput) :
    List (String × EmbVal V) :=
  match buildRun encode company_data with
  | .ok m => m.map fun p => (p.1, EmbVal.vec p.2)
  | .error e => [("error", EmbVal.msg e)]

/-- The text that the section loop of `generate_structured_embeddings`
extracts for a given regex-handled section (the stripped capture, or
`""` when the regex does not match); `press_content` itself for `press`;
`""` for anything else. -/
def builder_section_text (name : String) (pi : ProfileInput) : String :=
  if name = "company_description" then
    ((capDesc pi.content).map pyStrip).getD ""
  else if name = "about" then
    ((capAbout pi.content).map pyStrip).getD ""
  else if name = "leadership" then
    ((capLead pi.content).map pyStrip).getD ""
  else if name = "jobs" then
    ((capJobs pi.content).map pyStrip).getD ""
  else if name = "financial" then
    ((capFin pi.content).map pyStrip).getD ""
  else if name = "main_content" then
    ((capMain pi.content).map pyStrip).getD ""
  else if name = "press" then
    pi.press_content
  else ""

/-- The seven enumerated section names of the spec's closed set. -/
def sectionNames7 : List String :=
  ["company_description", "about", "leadership", "jobs", "financial",
   "main_content", "press"]

/-! Spec-side, declarative descriptions of string scanning, used to state
the claims about `extract_section` independently of its implementation. -/

/-- `pat` occurs in `t` starting at index `i`. -/
def matchAtP (t pat : List Char) (i : Nat) : Prop :=
  pat <+: t.drop i

instance (t pat : List Char) (i : Nat) : Decidable (matchAtP t pat i) :=
  inferInstanceAs (Decidable (_ <+: _))

/-- `pat` occurs somewhere in `t` at an index `≥ s`.  (The `t.length + 1`
bound is redundant for nonempty `pat` and keeps the predicate
decidable.) -/
def occursInFrom (pat t : List Char) (s : Nat) : Prop :=
  ∃ i, i < t.length + 1 ∧ (s ≤ i ∧ matchAtP t pat i)

instance (pat t : List Char) (s : Nat) : Decidable (occursInFrom pat t s) :=
  inferInstanceAs (Decidable (∃ i, i < _ ∧ _))

/-- `pat` occurs somewhere in `t`. -/
def occursIn (pat t : List Char) : Prop :=
  occursInFrom pat t 0

instance (pat t : List Char) : Decidable (occursIn pat t) :=
  inferInstanceAs (Decidable (occursInFrom _ _ _))

/-- `j` is the least index `≥ s` at which `pat` occurs in `t`. -/
def firstOccurFromAt (t pat : List Char) (s j : Nat) : Prop :=
  s ≤ j ∧ matchAtP t pat j ∧ ∀ k, k < j → s ≤ k → ¬ matchAtP t pat k

instance (t pat : List Char) (s j : Nat) :
    Decidable (firstOccurFromAt t pat s j) :=
  inferInstanceAs (Decidable (_ ∧ _))

/-- `j` is the least index `≥ n` at which any enumerated marker other
than `marker` occurs in `t`. -/
def earliestOtherMarkerAt (t marker : List Char) (n j : Nat) : Prop :=
  n ≤ j ∧ (∃ m ∈ markersList, m ≠ marker ∧ matchAtP t m j) ∧
    ∀ k, k < j → n ≤ k → ∀ m ∈ markersList, m ≠ marker → ¬ matchAtP t m k

instance (t marker : List Char) (n j : Nat) :
    Decidable (earliestOtherMarkerAt t marker n j) :=
  inferInstanceAs (Decidable (_ ∧ _))

/-- No enumerated marker other than `marker` occurs in `t` at any index
`≥ n`. -/
def noOtherMarkerFrom (t marker : List Char) (n : Nat) : Prop :=
  ∀ m ∈ markersList, m ≠ marker → ¬ occursInFrom m t n

instance (t marker : List Char) (n : Nat) :
    Decidable (noOtherMarkerFrom t marker n) :=
  inferInstanceAs (Decidable (∀ m ∈ markersList, _))

/-- Minimum of two optional naturals, treating `none` as "no value". -/
def minOptN : Option Nat → Option Nat → Option Nat
  | none, b => b
  | some x, none => some x
  | some x, some y => some (min x y)

/-- Minimum of a list of naturals (`none` on the empty list). -/
def listMinN : List Nat → Option Nat
  | [] => none
  | x :: xs =>
    match listMinN xs with
    | none => some x
    | some y => some (min x y)

/-- The indices collected by the `next_marker_idx` loop: for each marker
in `l` other than `sectionMarker`, its first occurrence index at or
after `contentStart`, when found. -/
def collectedIdxs (text sectionMarker : List Char) (contentStart : Nat)
    (l : List (List Char)) : List Nat :=
  l.filterMap fun m =>
    if m = sectionMarker then none else pyFindFrom text m contentStart

/-- The text a single `sections` entry submits to the backend, if any:
`None` when the entry's computation raises or its content is not
substantial, otherwise the (possibly 5000-char-truncated) section text —
mirroring the body of the section loop
(`generate_structured_embeddings`, lines 535-547). -/
def plannedText (press_content : String) (p : String × SecVal) :
    Option String :=
  match secContentOf p.2 with
  | .error _ => none
  | .ok sc0 =>
    let sc := if p.1 = "press" then press_content else sc0
    if sc ≠ "" ∧ 50 < sc.length then
      some (if 5000 < sc.length then sc.take 5000 else sc)
    else none

/-- The sequence of texts `generate_structured_embeddings` submits to
the backend, in submission order: the substantial section texts of the
loop, then — only when `press_content` is empty, since a non-empty
`press_content` raises inside the loop before the `combined` step is
reached — the truncated combined text.  This is a pure function of the
profile input: the loop aborts at the first exception, so the backend
call actually made at a failing text is exactly the first failing entry
of this list. -/
def submittedTexts (pi : ProfileInput) : List String :=
  ((sectionsListOf pi.content pi.press_content).filterMap
    (plannedText pi.press_content)) ++
    (if pi.press_content = "" then
      [((capDesc pi.content).getD "" ++ " " ++
        (capAbout pi.content).getD "").take 5000]
    else [])

/-- Canonical §6 layout around one regex-handled section whose pattern has
a terminating lookahead: the section marker first occurs at `p`; the
regex literal `lit` (the marker, its same-line tail if any, and a line
break) matches there; the regex terminator `stop` (a blank line followed
by the next heading) first occurs at `r` after the capture start; and the
heading starting two characters into that terminator is also the earliest
other enumerated marker, which is what the Section Extractor cuts at. -/
def stopShapeAt (content marker lit stop : String) (p r : Nat) : Prop :=
  firstOccurFromAt content.toList marker.toList 0 p ∧
  matchAtP content.toList lit.toList p ∧
  firstOccurFromAt content.toList stop.toList (p + lit.toList.length) r ∧
  earliestOtherMarkerAt content.toList marker.toList
    (p + lit.toList.length - 1) (r + 2)

instance (content marker lit stop : String) (p r : Nat) :
    Decidable (stopShapeAt content marker lit stop p r) :=
  inferInstanceAs (Decidable (_ ∧ _))

/-- Canonical §6 layout around the final section (`MAIN CONTENT`): the
marker first occurs at `p`, the regex literal matches there, and no other
enumerated marker occurs after the content start. -/
def endShapeAt (content marker lit : String) (p : Nat) : Prop :=
  firstOccurFromAt content.toList marker.toList 0 p ∧
  matchAtP content.toList lit.toList p ∧
  noOtherMarkerFrom content.toList marker.toList
    (p + lit.toList.length - 1)

instance (content marker lit : String) (p : Nat) :
    Decidable (endShapeAt content marker lit p) :=
  inferInstanceAs (Decidable (_ ∧ _))

/-! Characterizations of the scanning primitives in terms of the
declarative first-occurrence predicates. -/

lemma firstMatch_eq_some_iff {pat t : List Char} {j : Nat} :
    firstMatch pat t = some j ↔
      pat <+: t.drop j ∧ ∀ k, k < j → ¬ pat <+: t.drop k := by
  induction t generalizing j with
  | nil =>
    simp only [firstMatch]
    by_cases hp : pat.isPrefixOf ([] : List Char)
    · rw [List.isPrefixOf_iff_prefix] at hp
      simp only [hp, if_pos (List.isPrefixOf_iff_prefix.mpr hp)]
      constructor
      · rintro h
        cases h
        simp [List.drop_nil, hp]
      · rintro ⟨-, hmin⟩
        by_contra hne
        have hj : 0 < j := Nat.pos_of_ne_zero (by simpa [eq_comm] using hne)
        exact hmin 0 hj (by simpa using hp)
    · rw [if_neg hp]
      rw [List.isPrefixOf_iff_prefix] at hp
      simp only [List.drop_nil]
      constructor
      · rintro ⟨⟩
      · rintro ⟨hpre, -⟩
        exact absurd hpre hp
  | cons c rest ih =>
    simp only [firstMatch]
    by_cases hp : pat.isPrefixOf (c :: rest)
    · rw [if_pos hp]
      rw [List.isPrefixOf_iff_prefix] at hp
      constructor
      · rintro h
        cases h
        exact ⟨by simpa using hp, by omega⟩
      · rintro ⟨-, hmin⟩
        by_contra hne
        have hj : 0 < j := Nat.pos_of_ne_zero (by simpa [eq_comm] using hne)
        exact hmin 0 hj (by simpa using hp)
    · rw [if_neg hp]
      rw [List.isPrefixOf_iff_prefix] at hp
      constructor
      · intro h
        obtain ⟨j', hj', rfl⟩ := Option.map_eq_some'.mp h
        obtain ⟨hpre, hmin⟩ := ih.mp hj'
        refine ⟨by simpa using hpre, ?_⟩
        intro k hk
        match k with
        | 0 => simpa using hp
        | k' + 1 =>
          have : k' < j' := by omega
          simpa using hmin k' this
      · rintro ⟨hpre, hmin⟩
        match j with
        | 0 => exact absurd (by simpa using hpre) hp
        | j' + 1 =>
          have := ih.mpr ⟨by simpa using hpre, fun k hk => by
            have := hmin (k + 1) (by omega)
            simpa using this⟩
          simp [this]

lemma firstMatch_eq_none_iff {pat t : List Char} :
    firstMatch pat t = none ↔ ∀ k, ¬ pat <+: t.drop k := by
  induction t with
  | nil =>
    simp only [firstMatch, List.drop_nil]
    by_cases hp : pat.isPrefixOf ([] : List Char)
    · rw [List.isPrefixOf_iff_prefix] at hp
      simp [if_pos (List.isPrefixOf_iff_prefix.mpr hp), hp]
    · rw [if_neg hp]
      rw [List.isPrefixOf_iff_prefix] at hp
      simp [hp]
  | cons c rest ih =>
    simp only [firstMatch]
    by_cases hp : pat.isPrefixOf (c :: rest)
    · rw [if_pos hp]
      rw [List.isPrefixOf_iff_prefix] at hp
      constructor
      · rintro ⟨⟩
      · intro h
        exact absurd (by simpa using hp) (h 0)
    · rw [if_neg hp]
      rw [List.isPrefixOf_iff_prefix] at hp
      rw [Option.map_eq_none', ih]
      constructor
      · intro h k
        match k with
        | 0 => simpa using hp
        | k' + 1 => simpa using h k'
      · intro h k
        simpa using h (k + 1)

lemma pyFindFrom_eq_some_iff {t pat : List Char} {s j : Nat} :
    pyFindFrom t pat s = some j ↔ firstOccurFromAt t pat s j := by
  unfold pyFindFrom firstOccurFromAt matchAtP
  rw [Option.map_eq_some']
  constructor
  · rintro ⟨i, hi, rfl⟩
    obtain ⟨hpre, hmin⟩ := firstMatch_eq_some_iff.mp hi
    rw [List.drop_drop] at hpre
    refine ⟨by omega, by simpa [Nat.add_comm] using hpre, ?_⟩
    intro k hk hsk
    have hk' : k - s < i := by omega
    have := hmin (k - s) hk'
    rw [List.drop_drop] at this
    have hks : s + (k - s) = k := by omega
    rwa [hks] at this
  · rintro ⟨hsj, hpre, hmin⟩
    refine ⟨j - s, ?_, by omega⟩
    rw [firstMatch_eq_some_iff]
    constructor
    · rw [List.drop_drop]
      have hjs : s + (j - s) = j := by omega
      rwa [hjs]
    · intro k hk
      rw [List.drop_drop]
      exact hmin (s + k) (by omega) (by omega)

lemma pyFindFrom_eq_none_iff {t pat : List Char} {s : Nat} :
    pyFindFrom t pat s = none ↔ ∀ k, s ≤ k → ¬ pat <+: t.drop k := by
  unfold pyFindFrom
  rw [Option.map_eq_none', firstMatch_eq_none_iff]
  constructor
  · intro h k hsk
    have := h (k - s)
    rw [List.drop_drop] at this
    have hks : s + (k - s) = k := by omega
    rwa [hks] at this
  · intro h k
    rw [List.drop_drop]
    exact h (s + k) (by omega)

lemma occursInFrom_iff {pat t : List Char} {s : Nat} (hpat : pat ≠ []) :
    occursInFrom pat t s ↔ ∃ k, s ≤ k ∧ matchAtP t pat k := by
  unfold occursInFrom
  constructor
  · rintro ⟨i, -, hsi, hm⟩
    exact ⟨i, hsi, hm⟩
  · rintro ⟨k, hsk, hm⟩
    refine ⟨k, ?_, hsk, hm⟩
    unfold matchAtP at hm
    have hlen : pat.length ≤ (t.drop k).length := hm.length_le
    have : 0 < pat.length := List.length_pos.mpr hpat
    have := t.length_drop k
    omega



lemma minOptN_none_right (a : Option Nat) : minOptN a none = a := by
  cases a <;> rfl

lemma minOptN_assoc (a b c : Option Nat) :
    minOptN (minOptN a b) c = minOptN a (minOptN b c) := by
  cases a <;> cases b <;> cases c <;> simp [minOptN, Nat.min_assoc]

lemma listMinN_cons (x : Nat) (xs : List Nat) :
    listMinN (x :: xs) = minOptN (some x) (listMinN xs) := by
  cases h : listMinN xs <;> simp [listMinN, h, minOptN]

lemma collectedIdxs_cons (text sectionMarker : List Char) (cs : Nat)
    (m : List Char) (rest : List (List Char)) :
    collectedIdxs text sectionMarker cs (m :: rest) =
      (if m = sectionMarker then [] else
        match pyFindFrom text m cs with
        | none => []
        | some idx => [idx]) ++ collectedIdxs text sectionMarker cs rest := by
  by_cases hm : m = sectionMarker
  · simp [collectedIdxs, hm]
  · cases hf : pyFindFrom text m cs <;> simp [collectedIdxs, hm, hf]

lemma nextMarkerIdx_aux (text sectionMarker : List Char) (cs : Nat)
    (l : List (List Char)) (acc : Option Nat) :
    l.foldl
      (fun acc m =>
        if m = sectionMarker then acc
        else
          match pyFindFrom text m cs with
          | none => acc
          | some idx =>
            match acc with
            | none => some idx
            | some cur => if idx < cur then some idx else acc)
      acc =
      minOptN acc (listMinN (collectedIdxs text sectionMarker cs l)) := by
  induction l generalizing acc with
  | nil => simp [collectedIdxs, listMinN, minOptN_none_right]
  | cons m rest ih =>
    rw [List.foldl_cons, collectedIdxs_cons]
    by_cases hm : m = sectionMarker
    · rw [if_pos hm, if_pos hm, List.nil_append, ih]
    · rw [if_neg hm, if_neg hm]
      cases hf : pyFindFrom text m cs with
      | none => rw [ih]; rfl
      | some idx =>
        have hstep :
            (match acc with
              | none => some idx
              | some cur => if idx < cur then some idx else acc) =
              minOptN acc (some idx) := by
          cases acc with
          | none => rfl
          | some cur =>
            simp only [minOptN]
            by_cases hlt : idx < cur
            · rw [if_pos hlt]
              congr 1
              omega
            · rw [if_neg hlt]
              congr 1
              omega
        rw [hstep, ih, List.singleton_append, listMinN_cons, ← minOptN_assoc]

lemma nextMarkerIdx_eq_listMinN (text sectionMarker : List Char) (cs : Nat) :
    nextMarkerIdx text sectionMarker cs =
      listMinN (collectedIdxs text sectionMarker cs markersList) := by
  unfold nextMarkerIdx
  rw [nextMarkerIdx_aux]
  rfl

lemma listMinN_eq_none_iff {l : List Nat} : listMinN l = none ↔ l = [] := by
  cases l with
  | nil => simp [listMinN]
  | cons x xs => cases h : listMinN xs <;> simp [listMinN, h]

lemma listMinN_eq_some_iff {l : List Nat} {j : Nat} :
    listMinN l = some j ↔ j ∈ l ∧ ∀ k ∈ l, j ≤ k := by
  induction l generalizing j with
  | nil => simp [listMinN]
  | cons x xs ih =>
    rw [listMinN_cons]
    cases h : listMinN xs with
    | none =>
      rw [listMinN_eq_none_iff] at h
      subst h
      simp only [minOptN, Option.some.injEq, List.mem_singleton,
        List.mem_cons, List.not_mem_nil, or_false]
      constructor
      · rintro rfl
        exact ⟨rfl, by rintro k rfl; exact le_refl k⟩
      · rintro ⟨rfl, -⟩
        rfl
    | some y =>
      obtain ⟨hymem, hymin⟩ := ih.mp h
      simp only [minOptN, Option.some.injEq]
      constructor
      · rintro rfl
        constructor
        · rcases le_total x y with hxy | hyx
          · rw [min_eq_left hxy]
            exact List.mem_cons_self x xs
          · rw [min_eq_right hyx]
            exact List.mem_cons_of_mem x hymem
        · intro k hk
          rcases List.mem_cons.mp hk with rfl | hk
          · exact min_le_left _ _
          · exact le_trans (min_le_right x y) (hymin k hk)
      · rintro ⟨hmem, hmin⟩
        have h1 : j ≤ x := hmin x (List.mem_cons_self x xs)
        have h2 : j ≤ y := hmin y (List.mem_cons_of_mem x hymem)
        have h3 : min x y ≤ j := by
          rcases List.mem_cons.mp hmem with rfl | hk
          · exact min_le_left _ _
          · exact le_trans (min_le_right x y) (hymin j hk)
        exact le_antisymm h3 (le_min h1 h2)

lemma mem_collectedIdxs {text sectionMarker : List Char} {cs j : Nat}
    {l : List (List Char)} :
    j ∈ collectedIdxs text sectionMarker cs l ↔
      ∃ m ∈ l, m ≠ sectionMarker ∧ pyFindFrom text m cs = some j := by
  unfold collectedIdxs
  rw [List.mem_filterMap]
  constructor
  · rintro ⟨m, hmem, hf⟩
    by_cases hm : m = sectionMarker
    · rw [if_pos hm] at hf
      cases hf
    · rw [if_neg hm] at hf
      exact ⟨m, hmem, hm, hf⟩
  · rintro ⟨m, hmem, hm, hf⟩
    exact ⟨m, hmem, by rw [if_neg hm]; exact hf⟩

lemma markers_ne_nil : ∀ m ∈ markersList, m ≠ ([] : List Char) := by
  decide

lemma nextMarkerIdx_eq_none_iff {text sectionMarker : List Char} {cs : Nat} :
    nextMarkerIdx text sectionMarker cs = none ↔
      ∀ m ∈ markersList, m ≠ sectionMarker → pyFindFrom text m cs = none := by
  rw [nextMarkerIdx_eq_listMinN, listMinN_eq_none_iff, List.eq_nil_iff_forall_not_mem]
  constructor
  · intro h m hmem hne
    cases hf : pyFindFrom text m cs with
    | none => rfl
    | some j =>
      exact absurd (mem_collectedIdxs.mpr ⟨m, hmem, hne, hf⟩) (h j)
  · intro h j hj
    obtain ⟨m, hmem, hne, hf⟩ := mem_collectedIdxs.mp hj
    rw [h m hmem hne] at hf
    cases hf

lemma nextMarkerIdx_eq_some_of {text sectionMarker : List Char} {n j : Nat}
    (h : earliestOtherMarkerAt text sectionMarker n j) :
    nextMarkerIdx text sectionMarker n = some j := by
  obtain ⟨hnj, ⟨m0, hm0mem, hm0ne, hm0match⟩, hmin⟩ := h
  rw [nextMarkerIdx_eq_listMinN, listMinN_eq_some_iff]
  constructor
  · refine mem_collectedIdxs.mpr ⟨m0, hm0mem, hm0ne, ?_⟩
    rw [pyFindFrom_eq_some_iff]
    exact ⟨hnj, hm0match, fun k hk hnk => hmin k hk hnk m0 hm0mem hm0ne⟩
  · intro k hk
    obtain ⟨m, hmem, hne, hf⟩ := mem_collectedIdxs.mp hk
    obtain ⟨hnk, hmatch, -⟩ := pyFindFrom_eq_some_iff.mp hf
    by_contra hlt
    exact hmin k (by omega) hnk m hmem hne hmatch

lemma trimL_cons_ws {c : Char} (hc : c.isWhitespace = true) (l : List Char) :
    trimL (c :: l) = trimL l := by
  simp [trimL, trimLeftL, List.dropWhile_cons, hc]

lemma trimL_append_ws (l : List Char) {c : Char} (hc : c.isWhitespace = true) :
    trimL (l ++ [c]) = trimL l := by
  unfold trimL trimLeftL
  rw [List.dropWhile_append]
  by_cases h : (l.dropWhile Char.isWhitespace).isEmpty
  · rw [if_pos h]
    rw [List.isEmpty_iff] at h
    rw [h]
    simp [List.dropWhile_cons, hc]
  · rw [if_neg h]
    rw [List.reverse_append]
    simp [List.dropWhile_cons, hc]

lemma singleton_prefix_iff {c : Char} {l : List Char} :
    [c] <+: l ↔ l.head? = some c := by
  cases l with
  | nil => simp
  | cons a as =>
    simp only [List.head?_cons, Option.some.injEq]
    constructor
    · rintro ⟨t, ht⟩
      cases ht
      rfl
    · rintro rfl
      exact ⟨as, rfl⟩

lemma matchAtP_newline_iff {t : List Char} {k : Nat} :
    matchAtP t ['\n'] k ↔ t[k]? = some '\n' := by
  unfold matchAtP
  rw [singleton_prefix_iff, List.head?_drop]

lemma text_ne_nil_of_matchAtP {t pat : List Char} {p : Nat}
    (hpat : pat ≠ []) (h : matchAtP t pat p) : t ≠ [] := by
  intro ht
  subst ht
  unfold matchAtP at h
  rw [List.drop_nil] at h
  exact hpat (List.prefix_nil.mp h)

lemma eq_singleton_of_len_head {l : List Char} {c : Char} (hlen : l.length = 1)
    (hhead : l.head? = some c) : l = [c] := by
  match l with
  | [] => cases hhead
  | [a] =>
    cases hhead
    rfl
  | a :: b :: rest => simp at hlen

lemma extractSectionCore_eval_slice {t marker : List Char} {p n j : Nat}
    (hmarker : marker ≠ [])
    (hp : firstOccurFromAt t marker 0 p)
    (hn : firstOccurFromAt t ['\n'] p n)
    (hj : earliestOtherMarkerAt t marker n j) :
    extractSectionCore t marker = trimL (sliceL t n j) := by
  have ht : t ≠ [] := text_ne_nil_of_matchAtP hmarker hp.2.1
  unfold extractSectionCore
  rw [if_neg (by simp [ht, hmarker])]
  rw [show pyFindFrom t marker 0 = some p from pyFindFrom_eq_some_iff.mpr hp]
  dsimp only
  rw [show pyFindFrom t ['\n'] p = some n from pyFindFrom_eq_some_iff.mpr hn]
  dsimp only
  rw [nextMarkerIdx_eq_some_of hj]

lemma extractSectionCore_eval_noMarker {t marker : List Char} {p n : Nat}
    (hmarker : marker ≠ [])
    (hp : firstOccurFromAt t marker 0 p)
    (hn : firstOccurFromAt t ['\n'] p n)
    (hnone : noOtherMarkerFrom t marker n) :
    extractSectionCore t marker = trimL (t.drop n) := by
  have ht : t ≠ [] := text_ne_nil_of_matchAtP hmarker hp.2.1
  unfold extractSectionCore
  rw [if_neg (by simp [ht, hmarker])]
  rw [show pyFindFrom t marker 0 = some p from pyFindFrom_eq_some_iff.mpr hp]
  dsimp only
  rw [show pyFindFrom t ['\n'] p = some n from pyFindFrom_eq_some_iff.mpr hn]
  dsimp only
  have hnext : nextMarkerIdx t marker n = none := by
    rw [nextMarkerIdx_eq_none_iff]
    intro m hmem hne
    rw [pyFindFrom_eq_none_iff]
    intro k hk hpre
    exact hnone m hmem hne
      ((occursInFrom_iff (markers_ne_nil m hmem)).mpr ⟨k, hk, hpre⟩)
  rw [hnext]

lemma extractSectionCore_eval_noNewline {t marker : List Char} {p : Nat}
    (hp : firstOccurFromAt t marker 0 p)
    (hnl : ¬ occursInFrom ['\n'] t p) :
    extractSectionCore t marker = [] := by
  unfold extractSectionCore
  by_cases hdeg : t = [] ∨ marker = []
  · rw [if_pos hdeg]
  · rw [if_neg hdeg]
    rw [show pyFindFrom t marker 0 = some p from pyFindFrom_eq_some_iff.mpr hp]
    dsimp only
    have hnone : pyFindFrom t ['\n'] p = none := by
      rw [pyFindFrom_eq_none_iff]
      intro k hk hpre
      exact hnl ((occursInFrom_iff (by simp)).mpr ⟨k, hk, hpre⟩)
    rw [hnone]

lemma extractSectionCore_eval_absent {t marker : List Char}
    (h : ¬ occursIn marker t) :
    extractSectionCore t marker = [] := by
  unfold extractSectionCore
  by_cases hdeg : t = [] ∨ marker = []
  · rw [if_pos hdeg]
  · rw [if_neg hdeg]
    push_neg at hdeg
    have hnone : pyFindFrom t marker 0 = none := by
      rw [pyFindFrom_eq_none_iff]
      intro k hk hpre
      exact h ((occursInFrom_iff hdeg.2).mpr ⟨k, hk, hpre⟩)
    rw [hnone]

lemma sliceL_eq (t : List Char) (a b : Nat) :
    sliceL t a b = (t.drop a).take (b - a) := by
  unfold sliceL
  rw [List.drop_take]

lemma regex_extract_agree_stop
    {t marker litTail stopTail : List Char} {p r : Nat}
    (hmem : marker ∈ markersList)
    (hlast : (marker ++ litTail)[(marker ++ litTail).length - 1]? = some '\n')
    (hnoNl : ∀ i, i < (marker ++ litTail).length - 1 →
      (marker ++ litTail)[i]? ≠ some '\n')
    (hLT : marker.length < (marker ++ litTail).length)
    (hp : firstOccurFromAt t marker 0 p)
    (hlit : matchAtP t (marker ++ litTail) p)
    (hr : firstOccurFromAt t ('\n' :: '\n' :: stopTail)
      (p + (marker ++ litTail).length) r)
    (hj : earliestOtherMarkerAt t marker
      (p + (marker ++ litTail).length - 1) (r + 2)) :
    extractSectionCore t marker =
      trimL (sliceL t (p + (marker ++ litTail).length) r) ∧
    regexCaptureLitStop t (marker ++ litTail) ('\n' :: '\n' :: stopTail) =
      some (sliceL t (p + (marker ++ litTail).length) r) := by
  have hmarker_ne : marker ≠ [] := markers_ne_nil marker hmem
  have hL1 : 1 ≤ (marker ++ litTail).length := by
    have := Nat.zero_le marker.length
    omega
  obtain ⟨rest, hrest⟩ := hlit
  have hdropq : t.drop (p + (marker ++ litTail).length) = rest := by
    rw [← List.drop_drop, ← hrest, List.drop_left]
  have hlitdrop : (marker ++ litTail).drop ((marker ++ litTail).length - 1) =
      ['\n'] := by
    apply eq_singleton_of_len_head
    · rw [List.length_drop]
      omega
    · rw [List.head?_drop]
      exact hlast
  have hdropcs : t.drop (p + (marker ++ litTail).length - 1) = '\n' :: rest := by
    have h1 : p + (marker ++ litTail).length - 1 =
        p + ((marker ++ litTail).length - 1) := by omega
    rw [h1, ← List.drop_drop, ← hrest,
      List.drop_append_of_le_length (by omega), hlitdrop]
    rfl
  have hqr : p + (marker ++ litTail).length ≤ r := hr.1
  obtain ⟨rest2, hrest2⟩ := hr.2.1
  have hdropr : rest.drop (r - (p + (marker ++ litTail).length)) =
      ('\n' :: '\n' :: stopTail) ++ rest2 := by
    rw [← hdropq, List.drop_drop]
    have h2 : p + (marker ++ litTail).length +
        (r - (p + (marker ++ litTail).length)) = r := by omega
    rw [h2, ← hrest2]
  have hcap : sliceL t (p + (marker ++ litTail).length) r =
      rest.take (r - (p + (marker ++ litTail).length)) := by
    rw [sliceL_eq, hdropq]
  have hn : firstOccurFromAt t ['\n'] p (p + (marker ++ litTail).length - 1) := by
    refine ⟨by omega, ?_, ?_⟩
    · rw [matchAtP_newline_iff, ← List.head?_drop, hdropcs]
      rfl
    · intro k hk hpk habs
      rw [matchAtP_newline_iff] at habs
      have hkp : k - p < (marker ++ litTail).length - 1 := by omega
      have hidx : t[k]? = (marker ++ litTail)[k - p]? := by
        have h3 : k = p + (k - p) := by omega
        conv_lhs => rw [h3, ← List.getElem?_drop]
        rw [← hrest, List.getElem?_append, if_pos (by omega)]
      exact hnoNl (k - p) hkp (by rw [← hidx]; exact habs)
  have hext : extractSectionCore t marker =
      trimL (sliceL t (p + (marker ++ litTail).length - 1) (r + 2)) :=
    extractSectionCore_eval_slice hmarker_ne hp hn hj
  have hslice : sliceL t (p + (marker ++ litTail).length - 1) (r + 2) =
      '\n' :: (rest.take (r - (p + (marker ++ litTail).length)) ++
        ['\n', '\n']) := by
    rw [sliceL_eq, hdropcs]
    have h2 : r + 2 - (p + (marker ++ litTail).length - 1) =
        ((r - (p + (marker ++ litTail).length)) + 2) + 1 := by omega
    rw [h2, List.take_succ_cons, List.take_add, hdropr]
    rfl
  have htrim : trimL (sliceL t (p + (marker ++ litTail).length - 1) (r + 2)) =
      trimL (sliceL t (p + (marker ++ litTail).length) r) := by
    rw [hslice, hcap]
    rw [trimL_cons_ws (by decide)]
    rw [show rest.take (r - (p + (marker ++ litTail).length)) ++ ['\n', '\n'] =
      (rest.take (r - (p + (marker ++ litTail).length)) ++ ['\n']) ++ ['\n']
      by simp]
    rw [trimL_append_ws _ (by decide), trimL_append_ws _ (by decide)]
  refine ⟨by rw [hext, htrim], ?_⟩
  unfold regexCaptureLitStop
  have hfl : pyFindFrom t (marker ++ litTail) 0 = some p := by
    rw [pyFindFrom_eq_some_iff]
    refine ⟨Nat.zero_le p, by exact ⟨rest, hrest⟩, ?_⟩
    intro k hk hzk habs
    exact hp.2.2 k hk (Nat.zero_le k)
      ((List.prefix_append marker litTail).trans habs)
  rw [hfl]
  dsimp only
  rw [pyFindFrom_eq_some_iff.mpr hr]

lemma regex_extract_agree_end
    {t marker litTail : List Char} {p : Nat}
    (hmem : marker ∈ markersList)
    (hlast : (marker ++ litTail)[(marker ++ litTail).length - 1]? = some '\n')
    (hnoNl : ∀ i, i < (marker ++ litTail).length - 1 →
      (marker ++ litTail)[i]? ≠ some '\n')
    (hLT : marker.length < (marker ++ litTail).length)
    (hp : firstOccurFromAt t marker 0 p)
    (hlit : matchAtP t (marker ++ litTail) p)
    (hnone : noOtherMarkerFrom t marker
      (p + (marker ++ litTail).length - 1)) :
    extractSectionCore t marker =
      trimL (t.drop (p + (marker ++ litTail).length)) ∧
    ∃ cap, regexCaptureLitEnd t (marker ++ litTail) = some cap ∧
      trimL cap = trimL (t.drop (p + (marker ++ litTail).length)) := by
  have hmarker_ne : marker ≠ [] := markers_ne_nil marker hmem
  have hL1 : 1 ≤ (marker ++ litTail).length := by
    have := Nat.zero_le marker.length
    omega
  obtain ⟨rest, hrest⟩ := hlit
  have hdropq : t.drop (p + (marker ++ litTail).length) = rest := by
    rw [← List.drop_drop, ← hrest, List.drop_left]
  have hlitdrop : (marker ++ litTail).drop ((marker ++ litTail).length - 1) =
      ['\n'] := by
    apply eq_singleton_of_len_head
    · rw [List.length_drop]
      omega
    · rw [List.head?_drop]
      exact hlast
  have hdropcs : t.drop (p + (marker ++ litTail).length - 1) = '\n' :: rest := by
    have h1 : p + (marker ++ litTail).length - 1 =
        p + ((marker ++ litTail).length - 1) := by omega
    rw [h1, ← List.drop_drop, ← hrest,
      List.drop_append_of_le_length (by omega), hlitdrop]
    rfl
  have hn : firstOccurFromAt t ['\n'] p
      (p + (marker ++ litTail).length - 1) := by
    refine ⟨by omega, ?_, ?_⟩
    · rw [matchAtP_newline_iff, ← List.head?_drop, hdropcs]
      rfl
    · intro k hk hpk habs
      rw [matchAtP_newline_iff] at habs
      have hkp : k - p < (marker ++ litTail).length - 1 := by omega
      have hidx : t[k]? = (marker ++ litTail)[k - p]? := by
        have h3 : k = p + (k - p) := by omega
        conv_lhs => rw [h3, ← List.getElem?_drop]
        rw [← hrest, List.getElem?_append, if_pos (by omega)]
      exact hnoNl (k - p) hkp (by rw [← hidx]; exact habs)
  have hext : extractSectionCore t marker =
      trimL (t.drop (p + (marker ++ litTail).length - 1)) :=
    extractSectionCore_eval_noMarker hmarker_ne hp hn hnone
  have htrim1 : trimL (t.drop (p + (marker ++ litTail).length - 1)) =
      trimL rest := by
    rw [hdropcs, trimL_cons_ws (by decide)]
  refine ⟨by rw [hext, htrim1, hdropq], ?_⟩
  unfold regexCaptureLitEnd
  have hfl : pyFindFrom t (marker ++ litTail) 0 = some p := by
    rw [pyFindFrom_eq_some_iff]
    refine ⟨Nat.zero_le p, by exact ⟨rest, hrest⟩, ?_⟩
    intro k hk hzk habs
    exact hp.2.2 k hk (Nat.zero_le k)
      ((List.prefix_append marker litTail).trans habs)
  rw [hfl]
  dsimp only
  refine ⟨_, rfl, ?_⟩
  rw [hdropq]
  by_cases hlastc : rest.getLast? = some '\n'
  · rw [if_pos hlastc]
    conv_rhs => rw [show rest = rest.dropLast ++ ['\n'] from
      (List.dropLast_append_getLast? '\n' hlastc).symm]
    rw [trimL_append_ws _ (by decide)]
  · rw [if_neg hlastc]

lemma sectionLoop_ok_mem {V : Type} {encode : String → Except String V}
    {press : String} {l : List (String × SecVal)} {acc out : List (String × V)}
    (h : sectionLoop encode press l acc = .ok out) :
    ∀ x ∈ out, x ∈ acc ∨ ∃ sv, (x.1, sv) ∈ l ∧
      ∃ sc0, secContentOf sv = .ok sc0 ∧
        (if x.1 = "press" then press else sc0) ≠ "" ∧
        50 < (if x.1 = "press" then press else sc0).length := by
  induction l generalizing acc with
  | nil =>
    intro x hx
    unfold sectionLoop at h
    cases h
    exact Or.inl hx
  | cons hd rest ih =>
    intro x hx
    obtain ⟨name, sv⟩ := hd
    unfold sectionLoop at h
    cases hsc : secContentOf sv with
    | error e =>
      rw [hsc] at h
      cases h
    | ok sc0 =>
      rw [hsc] at h
      dsimp only [bind, Except.bind] at h
      by_cases hcond : (if name = "press" then press else sc0) ≠ "" ∧
          50 < (if name = "press" then press else sc0).length
      · rw [if_pos hcond] at h
        cases henc : encode (if
            5000 < (if name = "press" then press else sc0).length then
            (if name = "press" then press else sc0).take 5000
          else (if name = "press" then press else sc0)) with
        | error e =>
          rw [henc] at h
          cases h
        | ok v =>
          rw [henc] at h
          dsimp only [bind, Except.bind] at h
          rcases ih h x hx with hacc | ⟨sv', hmem, hrest⟩
          · rcases List.mem_append.mp hacc with hacc | hsingle
            · exact Or.inl hacc
            · rcases List.mem_singleton.mp hsingle with rfl
              refine Or.inr ⟨sv, List.mem_cons_self _ _, sc0, hsc, ?_⟩
              exact hcond
          · exact Or.inr ⟨sv', List.mem_cons_of_mem _ hmem, hrest⟩
      · rw [if_neg hcond] at h
        rcases ih h x hx with hacc | ⟨sv', hmem, hrest⟩
        · exact Or.inl hacc
        · exact Or.inr ⟨sv', List.mem_cons_of_mem _ hmem, hrest⟩

lemma buildRun_ok_mem {V : Type} {encode : String → Except String V}
    {pi : ProfileInput} {out : List (String × V)}
    (h : buildRun encode pi = .ok out) :
    ∀ x ∈ out, x.1 = "combined" ∨
      ∃ sv, (x.1, sv) ∈ sectionsListOf pi.content pi.press_content ∧
        ∃ sc0, secContentOf sv = .ok sc0 ∧
          (if x.1 = "press" then pi.press_content else sc0) ≠ "" ∧
          50 < (if x.1 = "press" then pi.press_content else sc0).length := by
  intro x hx
  unfold buildRun at h
  cases hloop : sectionLoop encode pi.press_content
      (sectionsListOf pi.content pi.press_content) [] with
  | error e =>
    rw [hloop] at h
    cases h
  | ok acc =>
    rw [hloop] at h
    dsimp only [bind, Except.bind] at h
    by_cases hcomb : ((capDesc pi.content).getD "" ++ " " ++
        (capAbout pi.content).getD "") ≠ ""
    · rw [if_pos hcomb] at h
      cases henc : encode (((capDesc pi.content).getD "" ++ " " ++
          (capAbout pi.content).getD "").take 5000) with
      | error e =>
        rw [henc] at h
        cases h
      | ok v =>
        rw [henc] at h
        dsimp only [bind, Except.bind] at h
        cases h
        rcases List.mem_append.mp hx with hacc | hsingle
        · rcases sectionLoop_ok_mem hloop x hacc with hnil | hsec
          · cases hnil
          · exact Or.inr hsec
        · rcases List.mem_singleton.mp hsingle with rfl
          exact Or.inl rfl
    · rw [if_neg hcomb] at h
      cases h
      rcases sectionLoop_ok_mem hloop x hx with hnil | hsec
      · cases hnil
      · exact Or.inr hsec

lemma combined_text_ne_empty (a b : String) : a ++ " " ++ b ≠ "" := by
  intro h
  have hlen : (a ++ " " ++ b).length = 0 := by rw [h]; rfl
  rw [String.length_append, String.length_append] at hlen
  have hsp : (" " : String).length = 1 := rfl
  omega

lemma buildRun_error_of_fail {V : Type} {encode : String → Except String V}
    {pi : ProfileInput} (hfail : ∀ s, ∃ m, encode s = .error m) :
    ∃ m, buildRun encode pi = .error m := by
  unfold buildRun
  cases hloop : sectionLoop encode pi.press_content
      (sectionsListOf pi.content pi.press_content) [] with
  | error e => exact ⟨e, rfl⟩
  | ok acc =>
    dsimp only [bind, Except.bind]
    rw [if_pos (combined_text_ne_empty _ _)]
    obtain ⟨m, hm⟩ := hfail (((capDesc pi.content).getD "" ++ " " ++
      (capAbout pi.content).getD "").take 5000)
    rw [hm]
    exact ⟨m, rfl⟩

lemma lookup_eq_none_of_not_mem {β : Type} {a : String}
    {l : List (String × β)} (h : ∀ b, (a, b) ∉ l) :
    l.lookup a = none := by
  induction l with
  | nil => rfl
  | cons hd rest ih =>
    obtain ⟨k, v⟩ := hd
    by_cases hk : a = k
    · subst hk
      exact absurd (List.mem_cons_self _ _) (h v)
    · have hbeq : (a == k) = false := beq_eq_false_iff_ne.mpr hk
      simp only [List.lookup, hbeq]
      exact ih fun b hb => h b (List.mem_cons_of_mem _ hb)

lemma dotL_eq_sum (a b : List ℝ) :
    dotL a b = ∑ i ∈ Finset.range (min a.length b.length),
      a.getD i 0 * b.getD i 0 := by
  induction a generalizing b with
  | nil => simp [dotL]
  | cons x xs ih =>
    cases b with
    | nil => simp [dotL]
    | cons y ys =>
      show x * y + dotL xs ys = _
      rw [ih ys]
      rw [List.length_cons, List.length_cons, Nat.succ_min_succ,
        Finset.sum_range_succ']
      simp
      try ring

lemma dotL_self_nonneg (a : List ℝ) : 0 ≤ dotL a a := by
  unfold dotL
  rw [List.zipWith_same]
  apply List.sum_nonneg
  intro x hx
  obtain ⟨y, -, rfl⟩ := List.mem_map.mp hx
  exact mul_self_nonneg y

lemma dotL_sq_le (a b : List ℝ) :
    (dotL a b) ^ 2 ≤ dotL a a * dotL b b := by
  have hcs := Finset.sum_mul_sq_le_sq_mul_sq
    (Finset.range (min a.length b.length))
    (fun i => a.getD i 0) (fun i => b.getD i 0)
  rw [dotL_eq_sum a b]
  have ha : ∑ i ∈ Finset.range (min a.length b.length), a.getD i 0 ^ 2 ≤
      dotL a a := by
    rw [dotL_eq_sum a a, min_self]
    have hsub : Finset.range (min a.length b.length) ⊆
        Finset.range a.length :=
      Finset.range_subset.mpr (min_le_left _ _)
    calc ∑ i ∈ Finset.range (min a.length b.length), a.getD i 0 ^ 2
        ≤ ∑ i ∈ Finset.range a.length, a.getD i 0 ^ 2 :=
          Finset.sum_le_sum_of_subset_of_nonneg hsub
            (fun i _ _ => sq_nonneg _)
      _ = ∑ i ∈ Finset.range a.length, a.getD i 0 * a.getD i 0 := by
          apply Finset.sum_congr rfl
          intro i hi
          ring
  have hb : ∑ i ∈ Finset.range (min a.length b.length), b.getD i 0 ^ 2 ≤
      dotL b b := by
    rw [dotL_eq_sum b b, min_self]
    have hsub : Finset.range (min a.length b.length) ⊆
        Finset.range b.length :=
      Finset.range_subset.mpr (min_le_right _ _)
    calc ∑ i ∈ Finset.range (min a.length b.length), b.getD i 0 ^ 2
        ≤ ∑ i ∈ Finset.range b.length, b.getD i 0 ^ 2 :=
          Finset.sum_le_sum_of_subset_of_nonneg hsub
            (fun i _ _ => sq_nonneg _)
      _ = ∑ i ∈ Finset.range b.length, b.getD i 0 * b.getD i 0 := by
          apply Finset.sum_congr rfl
          intro i hi
          ring
  calc (∑ i ∈ Finset.range (min a.length b.length),
          a.getD i 0 * b.getD i 0) ^ 2
      ≤ (∑ i ∈ Finset.range (min a.length b.length), a.getD i 0 ^ 2) *
          ∑ i ∈ Finset.range (min a.length b.length), b.getD i 0 ^ 2 := hcs
    _ ≤ dotL a a * dotL b b := by
        apply mul_le_mul ha hb (Finset.sum_nonneg fun i _ => sq_nonneg _)
        exact le_trans (Finset.sum_nonneg fun i _ => sq_nonneg _) ha

lemma norm2_nonneg (a : List ℝ) : 0 ≤ norm2 a := Real.sqrt_nonneg _

lemma abs_dotL_le (a b : List ℝ) : |dotL a b| ≤ norm2 a * norm2 b := by
  rw [← Real.sqrt_sq_eq_abs]
  unfold norm2
  rw [← Real.sqrt_mul (dotL_self_nonneg a)]
  exact Real.sqrt_le_sqrt (dotL_sq_le a b)

lemma dotL_eq_zero_of_norm2_left {a : List ℝ} (h : norm2 a = 0)
    (b : List ℝ) : dotL a b = 0 := by
  have habs := abs_dotL_le a b
  rw [h, zero_mul] at habs
  exact abs_eq_zero.mp (le_antisymm habs (abs_nonneg _))

lemma dotL_eq_zero_of_norm2_right {b : List ℝ} (h : norm2 b = 0)
    (a : List ℝ) : dotL a b = 0 := by
  have habs := abs_dotL_le a b
  rw [h, mul_zero] at habs
  exact abs_eq_zero.mp (le_antisymm habs (abs_nonneg _))

lemma guardedNorm_pos (a : List ℝ) :
    0 < (if norm2 a = 0 then 1 else norm2 a) := by
  by_cases h : norm2 a = 0
  · rw [if_pos h]
    norm_num
  · rw [if_neg h]
    exact lt_of_le_of_ne (norm2_nonneg a) (Ne.symm h)

lemma calculate_similarity_bounds (a b : List ℝ) :
    -1 ≤ calculate_similarity a b ∧ calculate_similarity a b ≤ 1 := by
  unfold calculate_similarity
  by_cases hdeg : a = [] ∨ b = []
  · rw [if_pos hdeg]
    norm_num
  · rw [if_neg hdeg]
    have hn1 := guardedNorm_pos a
    have hn2 := guardedNorm_pos b
    have habs : |dotL a b| ≤ (if norm2 a = 0 then 1 else norm2 a) *
        (if norm2 b = 0 then 1 else norm2 b) := by
      by_cases h1 : norm2 a = 0
      · rw [dotL_eq_zero_of_norm2_left h1 b, abs_zero]
        exact (mul_pos hn1 hn2).le
      · by_cases h2 : norm2 b = 0
        · rw [dotL_eq_zero_of_norm2_right h2 a, abs_zero]
          exact (mul_pos hn1 hn2).le
        · rw [if_neg h1, if_neg h2]
          exact abs_dotL_le a b
    have hprod : 0 < (if norm2 a = 0 then 1 else norm2 a) *
        (if norm2 b = 0 then 1 else norm2 b) := mul_pos hn1 hn2
    rw [← abs_le, abs_div, abs_of_pos hprod, div_le_one hprod]
    exact habs

lemma calculate_similarity_zero_of_norm2 {a b : List ℝ}
    (h : norm2 a = 0 ∨ norm2 b = 0) : calculate_similarity a b = 0 := by
  unfold calculate_similarity
  by_cases hdeg : a = [] ∨ b = []
  · rw [if_pos hdeg]
  · rw [if_neg hdeg]
    rcases h with h | h
    · rw [dotL_eq_zero_of_norm2_left h b, zero_div]
    · rw [dotL_eq_zero_of_norm2_right h a, zero_div]

lemma mem_search_iff {encode : String → List ℝ} {query : String}
    {company_data : CompanyData} {threshold : ℝ} {x : String × SearchResult} :
    x ∈ search_with_embeddings encode query company_data threshold ↔
      ∃ p ∈ company_data.embeddings,
        calculate_similarity (encode query) p.2 ≥ threshold ∧
        x = (p.1, { score := calculate_similarity (encode query) p.2
                    content := sectionContent company_data p.1 }) := by
  unfold search_with_embeddings
  rw [List.mem_filterMap]
  constructor
  · rintro ⟨p, hmem, hf⟩
    by_cases hc : calculate_similarity (encode query) p.2 ≥ threshold
    · rw [if_pos hc] at hf
      cases hf
      exact ⟨p, hmem, hc, rfl⟩
    · rw [if_neg hc] at hf
      cases hf
  · rintro ⟨p, hmem, hc, rfl⟩
    exact ⟨p, hmem, by rw [if_pos hc]⟩

lemma search_score_ge {encode : String → List ℝ} {query : String}
    {company_data : CompanyData} {threshold : ℝ} {x : String × SearchResult}
    (hx : x ∈ search_with_embeddings encode query company_data threshold) :
    threshold ≤ x.2.score := by
  obtain ⟨p, -, hc, rfl⟩ := mem_search_iff.mp hx
  exact hc

lemma search_antitone_mem {encode : String → List ℝ} {query : String}
    {company_data : CompanyData} {t t' : ℝ} (h : t ≤ t')
    {x : String × SearchResult}
    (hx : x ∈ search_with_embeddings encode query company_data t') :
    x ∈ search_with_embeddings encode query company_data t := by
  obtain ⟨p, hmem, hc, rfl⟩ := mem_search_iff.mp hx
  exact mem_search_iff.mpr ⟨p, hmem, le_trans h hc, rfl⟩

lemma search_antitone_length {encode : String → List ℝ} {query : String}
    {company_data : CompanyData} {t t' : ℝ} (h : t ≤ t') :
    (search_with_embeddings encode query company_data t').length ≤
      (search_with_embeddings encode query company_data t).length := by
  unfold search_with_embeddings
  induction company_data.embeddings with
  | nil => simp
  | cons p rest ih =>
    simp only [List.filterMap_cons]
    by_cases hc' : calculate_similarity (encode query) p.2 ≥ t'
    · rw [if_pos hc', if_pos (le_trans h hc')]
      dsimp only
      simp only [List.length_cons]
      exact Nat.succ_le_succ ih
    · rw [if_neg hc']
      dsimp only
      by_cases hc : calculate_similarity (encode query) p.2 ≥ t
      · rw [if_pos hc]
        dsimp only
        simp only [List.length_cons]
        exact le_trans ih (Nat.le_succ _)
      · rw [if_neg hc]
        dsimp only
        exact ih

lemma mem_high_iff {encode : String → List ℝ} {cat : String}
    {cd : CompanyData} {e : MatchEntry} :
    e ∈ (find_product_category_matches encode cat cd).high_relevance ↔
      ∃ p ∈ search_with_embeddings encode cat cd 0.4,
        p.2.score ≥ 0.65 ∧
        e = ⟨p.1, p.2.score, makeSnippet p.2.content⟩ := by
  unfold find_product_category_matches
  rw [List.mem_filterMap]
  constructor
  · rintro ⟨p, hmem, hf⟩
    by_cases hc : p.2.score ≥ 0.65
    · rw [if_pos hc] at hf
      cases hf
      exact ⟨p, hmem, hc, rfl⟩
    · rw [if_neg hc] at hf
      cases hf
  · rintro ⟨p, hmem, hc, rfl⟩
    exact ⟨p, hmem, by rw [if_pos hc]⟩

lemma mem_medium_iff {encode : String → List ℝ} {cat : String}
    {cd : CompanyData} {e : MatchEntry} :
    e ∈ (find_product_category_matches encode cat cd).medium_relevance ↔
      ∃ p ∈ search_with_embeddings encode cat cd 0.4,
        (¬ p.2.score ≥ 0.65 ∧ p.2.score ≥ 0.5) ∧
        e = ⟨p.1, p.2.score, makeSnippet p.2.content⟩ := by
  unfold find_product_category_matches
  rw [List.mem_filterMap]
  constructor
  · rintro ⟨p, hmem, hf⟩
    by_cases hc : ¬ p.2.score ≥ 0.65 ∧ p.2.score ≥ 0.5
    · rw [if_pos hc] at hf
      cases hf
      exact ⟨p, hmem, hc, rfl⟩
    · rw [if_neg hc] at hf
      cases hf
  · rintro ⟨p, hmem, hc, rfl⟩
    exact ⟨p, hmem, by rw [if_pos hc]⟩

lemma mem_low_iff {encode : String → List ℝ} {cat : String}
    {cd : CompanyData} {e : MatchEntry} :
    e ∈ (find_product_category_matches encode cat cd).low_relevance ↔
      ∃ p ∈ search_with_embeddings encode cat cd 0.4,
        (¬ p.2.score ≥ 0.65 ∧ ¬ p.2.score ≥ 0.5) ∧
        e = ⟨p.1, p.2.score, makeSnippet p.2.content⟩ := by
  unfold find_product_category_matches
  rw [List.mem_filterMap]
  constructor
  · rintro ⟨p, hmem, hf⟩
    by_cases hc : ¬ p.2.score ≥ 0.65 ∧ ¬ p.2.score ≥ 0.5
    · rw [if_pos hc] at hf
      cases hf
      exact ⟨p, hmem, hc, rfl⟩
    · rw [if_neg hc] at hf
      cases hf
  · rintro ⟨p, hmem, hc, rfl⟩
    exact ⟨p, hmem, by rw [if_pos hc]⟩

lemma filterMap_buckets_length (l : List (String × SearchResult)) :
    (l.filterMap fun p => if p.2.score ≥ 0.65 then
      some (⟨p.1, p.2.score, makeSnippet p.2.content⟩ : MatchEntry)
      else none).length +
    (l.filterMap fun p => if ¬ p.2.score ≥ 0.65 ∧ p.2.score ≥ 0.5 then
      some (⟨p.1, p.2.score, makeSnippet p.2.content⟩ : MatchEntry)
      else none).length +
    (l.filterMap fun p => if ¬ p.2.score ≥ 0.65 ∧ ¬ p.2.score ≥ 0.5 then
      some (⟨p.1, p.2.score, makeSnippet p.2.content⟩ : MatchEntry)
      else none).length = l.length := by
  induction l with
  | nil => rfl
  | cons p rest ih =>
    simp only [List.filterMap_cons]
    by_cases h1 : p.2.score ≥ 0.65
    · rw [if_pos h1, if_neg (by simp [h1]), if_neg (by simp [h1])]
      dsimp only
      simp only [List.length_cons]
      omega
    · rw [if_neg h1]
      by_cases h2 : p.2.score ≥ 0.5
      · rw [if_pos ⟨h1, h2⟩, if_neg (by simp [h2])]
        dsimp only
        simp only [List.length_cons]
        omega
      · rw [if_neg (by simp [h2]), if_pos ⟨h1, h2⟩]
        dsimp only
        simp only [List.length_cons]
        omega

lemma buckets_length_partition {encode : String → List ℝ} {cat : String}
    {cd : CompanyData} :
    (find_product_category_matches encode cat cd).high_relevance.length +
    (find_product_category_matches encode cat cd).medium_relevance.length +
    (find_product_category_matches encode cat cd).low_relevance.length =
    (search_with_embeddings encode cat cd 0.4).length :=
  filterMap_buckets_length (search_with_embeddings encode cat cd 0.4)

lemma mem_mentions_iff {encode : String → List ℝ} {name : String}
    {cd : CompanyData} {e : Mention} :
    e ∈ find_competitor_semantic_mentions encode name cd ↔
      ∃ p ∈ search_with_embeddings encode
        ("companies like " ++ name ++ " or similar to " ++ name) cd 0.6,
        ∃ s ∈ (mentionSentences p.2.content).map pyStrip,
          (20 < s.length ∧
            (comparisonPhrases.any fun phrase =>
              strContains (pyLower s) phrase) = true) ∧
          e = ⟨p.1, p.2.score, s⟩ := by
  unfold find_competitor_semantic_mentions
  rw [List.mem_flatMap]
  constructor
  · rintro ⟨p, hmem, hf⟩
    rw [List.mem_filterMap] at hf
    obtain ⟨s, hs, hf⟩ := hf
    by_cases hc : 20 < s.length ∧
        (comparisonPhrases.any fun phrase =>
          strContains (pyLower s) phrase) = true
    · rw [if_pos hc] at hf
      cases hf
      exact ⟨p, hmem, s, hs, hc, rfl⟩
    · rw [if_neg hc] at hf
      cases hf
  · rintro ⟨p, hmem, s, hs, hc, rfl⟩
    refine ⟨p, hmem, ?_⟩
    rw [List.mem_filterMap]
    exact ⟨s, hs, by rw [if_pos hc]⟩

/-! The claims. -/

/-- C2: for vectors of equal dimension `calculate_similarity` lies in
`[-1, 1]`; it returns exactly `0.0` when either input is empty; and it
returns `0.0` (rather than failing or producing NaN — the model is a
total function on `ℝ`) when both inputs are non-empty but either has
zero l2 norm. -/
theorem C2_calculate_similarity_bounds (a b : List ℝ) :
    (a.length = b.length →
      -1 ≤ calculate_similarity a b ∧ calculate_similarity a b ≤ 1) ∧
    (a = [] → calculate_similarity a b = 0) ∧
    (b = [] → calculate_similarity a b = 0) ∧
    (a ≠ [] → b ≠ [] → norm2 a = 0 ∨ norm2 b = 0 →
      calculate_similarity a b = 0) := by
  refine ⟨fun _ => calculate_similarity_bounds a b, ?_, ?_,
    fun _ _ h => calculate_similarity_zero_of_norm2 h⟩
  · rintro rfl
    unfold calculate_similarity
    rw [if_pos (Or.inl rfl)]
  · rintro rfl
    unfold calculate_similarity
    rw [if_pos (Or.inr rfl)]

theorem C2_witness :
    (-1 ≤ calculate_similarity [(1 : ℝ), 0] [0, 1] ∧
      calculate_similarity [(1 : ℝ), 0] [0, 1] ≤ 1) ∧
    calculate_similarity ([] : List ℝ) [1] = 0 ∧
    calculate_similarity [(1 : ℝ)] [] = 0 ∧
    calculate_similarity [(0 : ℝ)] [1] = 0 :=
  ⟨(C2_calculate_similarity_bounds [1, 0] [0, 1]).1 rfl,
   (C2_calculate_similarity_bounds [] [1]).2.1 rfl,
   (C2_calculate_similarity_bounds [1] []).2.2.1 rfl,
   (C2_calculate_similarity_bounds [0] [1]).2.2.2 (by simp) (by simp)
     (Or.inl (by
       unfold norm2
       rw [show dotL [(0 : ℝ)] [0] = 0 by simp [dotL], Real.sqrt_zero]))⟩

/-- C4: for an enumerated marker `M`, `extract_section T M` returns the
empty string when `M` does not occur in `T`; otherwise the section is the
trimmed slice of `T` starting at the first line break at-or-after the
first occurrence of `M` (since no marker contains a line break this is
the first line break after the occurrence), cut at the earliest index
at-or-after that start at which any other enumerated marker occurs, or
running to the end of `T` when no other enumerated marker occurs. -/
theorem C4_extract_section_contract (text sectionMarker : String)
    (hmem : sectionMarker.toList ∈ markersList) :
    (¬ occursIn sectionMarker.toList text.toList →
      extract_section text sectionMarker = "") ∧
    (∀ p n j, firstOccurFromAt text.toList sectionMarker.toList 0 p →
      firstOccurFromAt text.toList ['\n'] p n →
      earliestOtherMarkerAt text.toList sectionMarker.toList n j →
      extract_section text sectionMarker =
        String.mk (trimL (sliceL text.toList n j))) ∧
    (∀ p n, firstOccurFromAt text.toList sectionMarker.toList 0 p →
      firstOccurFromAt text.toList ['\n'] p n →
      noOtherMarkerFrom text.toList sectionMarker.toList n →
      extract_section text sectionMarker =
        String.mk (trimL (text.toList.drop n))) := by
  have hne : sectionMarker.toList ≠ [] := markers_ne_nil _ hmem
  refine ⟨?_, ?_, ?_⟩
  · intro habs
    unfold extract_section
    rw [extractSectionCore_eval_absent habs]
  · intro p n j hp hn hj
    unfold extract_section
    rw [extractSectionCore_eval_slice hne hp hn hj]
  · intro p n hp hn hnone
    unfold extract_section
    rw [extractSectionCore_eval_noMarker hne hp hn hnone]

set_option maxRecDepth 40000 in
theorem C4_witness :
    ("ABOUT/MISSION:".toList ∈ markersList) ∧
    firstOccurFromAt
      "ABOUT/MISSION:\nWe build rockets.\n\nMAIN CONTENT:\nStuff here".toList
      "ABOUT/MISSION:".toList 0 0 ∧
    firstOccurFromAt
      "ABOUT/MISSION:\nWe build rockets.\n\nMAIN CONTENT:\nStuff here".toList
      ['\n'] 0 14 ∧
    earliestOtherMarkerAt
      "ABOUT/MISSION:\nWe build rockets.\n\nMAIN CONTENT:\nStuff here".toList
      "ABOUT/MISSION:".toList 14 34 ∧
    extract_section
      "ABOUT/MISSION:\nWe build rockets.\n\nMAIN CONTENT:\nStuff here"
      "ABOUT/MISSION:" =
      String.mk (trimL (sliceL
        "ABOUT/MISSION:\nWe build rockets.\n\nMAIN CONTENT:\nStuff here".toList
        14 34)) :=
  ⟨by decide, by decide, by decide, by decide,
   (C4_extract_section_contract _ _ (by decide)).2.1 0 14 34
     (by decide) (by decide) (by decide)⟩

/-- C10: `extract_section` returns the empty string when the text or the
marker is empty, and also when the marker occurs but no line-break
character occurs at or after its first occurrence (the
marker-on-the-last-line case) — the trailing same-line text is
discarded. -/
theorem C10_extract_section_no_newline (text sectionMarker : String) :
    (text = "" → extract_section text sectionMarker = "") ∧
    (sectionMarker = "" → extract_section text sectionMarker = "") ∧
    (∀ p, firstOccurFromAt text.toList sectionMarker.toList 0 p →
      ¬ occursInFrom ['\n'] text.toList p →
      extract_section text sectionMarker = "") := by
  refine ⟨?_, ?_, ?_⟩
  · rintro rfl
    rfl
  · rintro rfl
    unfold extract_section extractSectionCore
    rw [if_pos (Or.inr (show "".toList = [] from rfl))]
  · intro p hp hnl
    unfold extract_section
    rw [extractSectionCore_eval_noNewline hp hnl]

set_option maxRecDepth 40000 in
theorem C10_witness :
    firstOccurFromAt "MAIN CONTENT: tail".toList "MAIN CONTENT:".toList 0 0 ∧
    ¬ occursInFrom ['\n'] "MAIN CONTENT: tail".toList 0 ∧
    extract_section "MAIN CONTENT: tail" "MAIN CONTENT:" = "" :=
  ⟨by decide, by decide,
   (C10_extract_section_no_newline "MAIN CONTENT: tail" "MAIN CONTENT:").2.2
     0 (by decide) (by decide)⟩

lemma mem_sectionsListOf_names {c pc n : String} {sv : SecVal}
    (h : (n, sv) ∈ sectionsListOf c pc) : n ∈ sectionNames7 := by
  simp only [sectionsListOf, List.mem_cons, List.not_mem_nil, or_false,
    Prod.mk.injEq] at h
  rcases h with ⟨rfl, -⟩ | ⟨rfl, -⟩ | ⟨rfl, -⟩ | ⟨rfl, -⟩ | ⟨rfl, -⟩ |
    ⟨rfl, -⟩ | ⟨rfl, -⟩ <;> decide

lemma sectionsListOf_sc {pi : ProfileInput} {n : String} {sv : SecVal}
    (h : (n, sv) ∈ sectionsListOf pi.content pi.press_content)
    {sc0 : String} (hsc : secContentOf sv = .ok sc0) :
    (if n = "press" then pi.press_content else sc0) =
      builder_section_text n pi := by
  simp only [sectionsListOf, List.mem_cons, List.not_mem_nil, or_false,
    Prod.mk.injEq] at h
  rcases h with ⟨rfl, rfl⟩ | ⟨rfl, rfl⟩ | ⟨rfl, rfl⟩ | ⟨rfl, rfl⟩ |
    ⟨rfl, rfl⟩ | ⟨rfl, rfl⟩ | ⟨rfl, rfl⟩
  · simp only [secContentOf, Except.ok.injEq] at hsc
    subst hsc
    simp [builder_section_text]
  · simp only [secContentOf, Except.ok.injEq] at hsc
    subst hsc
    simp [builder_section_text]
  · simp only [secContentOf, Except.ok.injEq] at hsc
    subst hsc
    simp [builder_section_text]
  · simp only [secContentOf, Except.ok.injEq] at hsc
    subst hsc
    simp [builder_section_text]
  · simp only [secContentOf, Except.ok.injEq] at hsc
    subst hsc
    simp [builder_section_text]
  · simp only [secContentOf, Except.ok.injEq] at hsc
    subst hsc
    simp [builder_section_text]
  · by_cases hpc : pi.press_content = ""
    · simp [builder_section_text, hpc]
    · simp only [secContentOf, hpc, if_neg] at hsc
      cases hsc

/-- C6: when a section's extracted text is at most 50 characters (in
particular when `pressContent` is empty for the `press` section), the
map returned by `generate_structured_embeddings` has no key for that
section. -/
theorem C6_substantiality_gate {V : Type} (encode : String → Except String V)
    (pi : ProfileInput) (name : String)
    (hname : name ∈ sectionNames7)
    (hlen : (builder_section_text name pi).length ≤ 50) :
    (generate_structured_embeddings encode pi).lookup name = none := by
  apply lookup_eq_none_of_not_mem
  intro b hb
  unfold generate_structured_embeddings at hb
  cases hrun : buildRun encode pi with
  | error e =>
    rw [hrun] at hb
    simp only [List.mem_singleton, Prod.mk.injEq] at hb
    obtain ⟨rfl, -⟩ := hb
    exact absurd hname (by decide)
  | ok m =>
    rw [hrun] at hb
    rw [List.mem_map] at hb
    obtain ⟨⟨n, v⟩, hmem, heq⟩ := hb
    have hn : n = name := congrArg Prod.fst heq
    subst hn
    rcases buildRun_ok_mem hrun (n, v) hmem with hcomb |
      ⟨sv, hsv, sc0, hsc, hcond1, hcond2⟩
    · dsimp only at hcomb
      subst hcomb
      exact absurd hname (by decide)
    · dsimp only at hsv hcond2
      rw [sectionsListOf_sc hsv hsc] at hcond2
      omega

set_option maxRecDepth 40000 in
theorem C6_witness :
    ("about" ∈ sectionNames7) ∧
    ((builder_section_text "about" ⟨"", ""⟩).length ≤ 50) ∧
    (generate_structured_embeddings (fun _ => Except.ok (0 : Nat))
      ⟨"", ""⟩).lookup "about" = none :=
  ⟨by decide, by decide,
   C6_substantiality_gate (fun _ => Except.ok (0 : Nat)) ⟨"", ""⟩ "about"
     (by decide) (by decide)⟩

set_option maxRecDepth 40000 in
/-- C7 as stated is false: the builder always adds a `combined` key.
At the explicit input `content = ""`, `press_content = ""` (and any
encoder), the returned map has the key `combined`, which is not one of
the seven enumerated section names. -/
theorem C7_counterexample :
    "combined" ∈ ((generate_structured_embeddings
      (fun _ => Except.ok (0 : Nat)) ⟨"", ""⟩).map Prod.fst) ∧
    "combined" ∉ sectionNames7 := by
  decide

/-- C7 (amended): every key of the map produced by
`generate_structured_embeddings` is one of the seven enumerated section
names, the always-present `combined` key, or the `error` key of the
failure path; and `search_with_embeddings` introduces no keys of its
own — its keys are drawn from the profile's embeddings map. -/
theorem C7_amended_closed_key_set :
    (∀ (V : Type) (encode : String → Except String V) (pi : ProfileInput)
      (k : String),
      k ∈ (generate_structured_embeddings encode pi).map Prod.fst →
      k ∈ sectionNames7 ∨ k = "combined" ∨ k = "error") ∧
    (∀ (encode : String → List ℝ) (query : String) (cd : CompanyData)
      (t : ℝ) (k : String),
      k ∈ (search_with_embeddings encode query cd t).map Prod.fst →
      k ∈ cd.embeddings.map Prod.fst) := by
  constructor
  · intro V encode pi k hk
    rw [List.mem_map] at hk
    obtain ⟨⟨n, v⟩, hmem, rfl⟩ := hk
    unfold generate_structured_embeddings at hmem
    cases hrun : buildRun encode pi with
    | error e =>
      rw [hrun] at hmem
      simp only [List.mem_singleton, Prod.mk.injEq] at hmem
      obtain ⟨rfl, -⟩ := hmem
      exact Or.inr (Or.inr rfl)
    | ok m =>
      rw [hrun] at hmem
      rw [List.mem_map] at hmem
      obtain ⟨⟨n', v'⟩, hm', heq⟩ := hmem
      have hn : n' = n := congrArg Prod.fst heq
      subst hn
      rcases buildRun_ok_mem hrun (n', v') hm' with hcomb | ⟨sv, hsv, -⟩
      · exact Or.inr (Or.inl hcomb)
      · exact Or.inl (mem_sectionsListOf_names hsv)
  · intro encode q cd t k hk
    rw [List.mem_map] at hk
    obtain ⟨x, hmem, rfl⟩ := hk
    obtain ⟨p, hp, -, rfl⟩ := mem_search_iff.mp hmem
    exact List.mem_map.mpr ⟨p, hp, rfl⟩

lemma sim_one : calculate_similarity [(1 : ℝ)] [1] = 1 := by
  unfold calculate_similarity
  rw [if_neg (by simp)]
  have hd : dotL [(1 : ℝ)] [1] = 1 := by
    simp [dotL]
  have hn : norm2 [(1 : ℝ)] = 1 := by
    unfold norm2
    rw [hd, Real.sqrt_one]
  rw [hd, hn]
  norm_num

lemma search_eval_1 (t : ℝ) (h : t ≤ 1) :
    search_with_embeddings (fun _ => [(1 : ℝ)]) "q"
      ⟨"", "", [("about", [(1 : ℝ)])]⟩ t =
      [("about", ⟨1, ""⟩)] := by
  unfold search_with_embeddings
  rw [List.filterMap_cons, List.filterMap_nil]
  dsimp only
  rw [sim_one, if_pos h]
  rfl

set_option maxRecDepth 40000 in
theorem C7_witness :
    ("combined" ∈ sectionNames7 ∨ "combined" = "combined" ∨
      "combined" = "error") ∧
    "about" ∈ (([("about", [(1 : ℝ)])] :
      List (String × List ℝ)).map Prod.fst) :=
  ⟨(C7_amended_closed_key_set).1 Nat (fun _ => Except.ok 0) ⟨"", ""⟩
      "combined" (by decide),
   (C7_amended_closed_key_set).2 (fun _ => [(1 : ℝ)]) "q"
      ⟨"", "", [("about", [(1 : ℝ)])]⟩ 0.5 "about"
      (by rw [search_eval_1 0.5 (by norm_num)]; simp)⟩

lemma sectionLoop_error_of_planned_fail {V : Type}
    {encode : String → Except String V} {press : String}
    (l : List (String × SecVal)) (acc : List (String × V))
    (h : ∃ s ∈ l.filterMap (plannedText press), ∃ m, encode s = .error m) :
    ∃ e, sectionLoop encode press l acc = .error e := by
  induction l generalizing acc with
  | nil =>
    obtain ⟨s, hs, -⟩ := h
    rw [List.filterMap_nil] at hs
    cases hs
  | cons hd rest ih =>
    obtain ⟨name, sv⟩ := hd
    unfold sectionLoop
    cases hsc : secContentOf sv with
    | error e =>
      exact ⟨e, rfl⟩
    | ok sc0 =>
      dsimp only [bind, Except.bind]
      have hplan : plannedText press (name, sv) =
          (if (if name = "press" then press else sc0) ≠ "" ∧
              50 < (if name = "press" then press else sc0).length then
            some (if 5000 < (if name = "press" then press else sc0).length
              then (if name = "press" then press else sc0).take 5000
              else (if name = "press" then press else sc0))
          else none) := by
        unfold plannedText
        rw [hsc]
      by_cases hcond : (if name = "press" then press else sc0) ≠ "" ∧
          50 < (if name = "press" then press else sc0).length
      · rw [if_pos hcond]
        cases henc : encode (if
            5000 < (if name = "press" then press else sc0).length then
            (if name = "press" then press else sc0).take 5000
          else (if name = "press" then press else sc0)) with
        | error m =>
          exact ⟨m, rfl⟩
        | ok v =>
          apply ih
          obtain ⟨s, hsmem, m, hm⟩ := h
          rw [List.filterMap_cons, hplan, if_pos hcond] at hsmem
          rcases List.mem_cons.mp hsmem with rfl | hsrest
          · rw [hm] at henc
            cases henc
          · exact ⟨s, hsrest, m, hm⟩
      · rw [if_neg hcond]
        apply ih
        obtain ⟨s, hsmem, m, hm⟩ := h
        rw [List.filterMap_cons, hplan, if_neg hcond] at hsmem
        exact ⟨s, hsmem, m, hm⟩

set_option maxRecDepth 10000 in
lemma buildRun_error_of_submitted_fail {V : Type}
    {encode : String → Except String V} {pi : ProfileInput}
    (h : ∃ s ∈ submittedTexts pi, ∃ m, encode s = .error m) :
    ∃ e, buildRun encode pi = .error e := by
  unfold buildRun
  cases hloop : sectionLoop encode pi.press_content
      (sectionsListOf pi.content pi.press_content) [] with
  | error e =>
    exact ⟨e, rfl⟩
  | ok acc =>
    obtain ⟨s, hsmem, m, hm⟩ := h
    unfold submittedTexts at hsmem
    rcases List.mem_append.mp hsmem with hsec | hcomb
    · obtain ⟨e, he⟩ := sectionLoop_error_of_planned_fail _ ([] : List (String × V))
        ⟨s, hsec, m, hm⟩
      rw [hloop] at he
      cases he
    · by_cases hpress : pi.press_content = ""
      · rw [if_pos hpress, List.mem_singleton] at hcomb
        rw [hcomb] at hm
        dsimp only [bind, Except.bind]
        rw [if_pos (combined_text_ne_empty _ _), hm]
        exact ⟨m, rfl⟩
      · rw [if_neg hpress] at hcomb
        cases hcomb

/-- C9: if the backend raises at any point during the run — `encode`
fails on any one of the texts the run submits to it (a single failing
call mid-run suffices), or fails on every input — then the map returned
by `generate_structured_embeddings` carries exactly the `error` key and
no section keys; and whenever the `error` key appears at all, the whole
map is that single diagnostic entry carrying the failure message —
never an error entry mixed with partial section embeddings. -/
theorem C9_backend_failure {V : Type} (encode : String → Except String V)
    (pi : ProfileInput) :
    ((∃ s ∈ submittedTexts pi, ∃ m, encode s = .error m) →
      (generate_structured_embeddings encode pi).map Prod.fst = ["error"]) ∧
    ((∀ s, ∃ m, encode s = .error m) →
      (generate_structured_embeddings encode pi).map Prod.fst = ["error"]) ∧
    (∀ e, ("error", e) ∈ generate_structured_embeddings encode pi →
      generate_structured_embeddings encode pi = [("error", e)]) := by
  refine ⟨?_, ?_, ?_⟩
  · intro h
    obtain ⟨e, he⟩ := buildRun_error_of_submitted_fail h
    unfold generate_structured_embeddings
    rw [he]
    rfl
  · intro hfail
    obtain ⟨m, hm⟩ := buildRun_error_of_fail hfail
    unfold generate_structured_embeddings
    rw [hm]
    rfl
  · intro e he
    unfold generate_structured_embeddings at he ⊢
    cases hrun : buildRun encode pi with
    | error m =>
      rw [hrun] at he
      simp only [List.mem_singleton, Prod.mk.injEq] at he
      obtain ⟨-, rfl⟩ := he
      rfl
    | ok mres =>
      rw [hrun] at he
      rw [List.mem_map] at he
      obtain ⟨⟨n, v⟩, hmem, heq⟩ := he
      have hn : n = "error" := congrArg Prod.fst heq
      rcases buildRun_ok_mem hrun (n, v) hmem with hcomb | ⟨sv, hsv, -⟩
      · dsimp only at hcomb
        rw [hn] at hcomb
        exact absurd hcomb (by decide)
      · dsimp only at hsv
        have hmem7 := mem_sectionsListOf_names hsv
        rw [hn] at hmem7
        exact absurd hmem7 (by decide)

set_option maxRecDepth 200000 in
theorem C9_witness :
    ((generate_structured_embeddings
        (fun s => if s =
            "aaaaaaaaaaaaaaaaaaaaaaaaaaaaaaaaaaaaaaaaaaaaaaaaaaaaaaaaaaaa"
          then Except.error "gpu died" else Except.ok (0 : Nat))
        ⟨"ABOUT/MISSION:\naaaaaaaaaaaaaaaaaaaaaaaaaaaaaaaaaaaaaaaaaaaaaaaaaaaaaaaaaaaa\n\nLEADERSHIP INFORMATION:\nx",
          ""⟩).map Prod.fst = ["error"]) ∧
    ((generate_structured_embeddings (fun _ => Except.error "boom" :
        String → Except String Nat) ⟨"", ""⟩).map Prod.fst = ["error"]) ∧
    generate_structured_embeddings (fun _ => Except.ok (0 : Nat)) ⟨"", "x"⟩ =
      [("error", EmbVal.msg "'str' object has no attribute 'group'")] :=
  ⟨(C9_backend_failure _ _).1
      ⟨"aaaaaaaaaaaaaaaaaaaaaaaaaaaaaaaaaaaaaaaaaaaaaaaaaaaaaaaaaaaa",
        by decide, "gpu died", rfl⟩,
   (C9_backend_failure _ _).2.1 (fun s => ⟨"boom", rfl⟩),
   (C9_backend_failure _ _).2.2 _ (by decide)⟩

/-- C1: every entry in the mapping returned by `search_with_embeddings`
at threshold `t` has score at least `t`, and for any `t' ≥ t` the result
at `t'` is a subset of — and never larger than — the result at `t`. -/
theorem C1_threshold_filter_monotone (encode : String → List ℝ) (q : String)
    (P : CompanyData) (t t' : ℝ) (h : t ≤ t') :
    (∀ x ∈ search_with_embeddings encode q P t, t ≤ x.2.score) ∧
    (∀ x ∈ search_with_embeddings encode q P t',
      x ∈ search_with_embeddings encode q P t) ∧
    (search_with_embeddings encode q P t').length ≤
      (search_with_embeddings encode q P t).length :=
  ⟨fun _ hx => search_score_ge hx,
   fun _ hx => search_antitone_mem h hx,
   search_antitone_length h⟩

theorem C1_witness :
    ((0.5 : ℝ) ≤ (("about", (⟨1, ""⟩ : SearchResult))).2.score) ∧
    (("about", (⟨1, ""⟩ : SearchResult)) ∈
      search_with_embeddings (fun _ => [(1 : ℝ)]) "q"
        ⟨"", "", [("about", [(1 : ℝ)])]⟩ 0.5) ∧
    ((search_with_embeddings (fun _ => [(1 : ℝ)]) "q"
        ⟨"", "", [("about", [(1 : ℝ)])]⟩ 0.7).length ≤
      (search_with_embeddings (fun _ => [(1 : ℝ)]) "q"
        ⟨"", "", [("about", [(1 : ℝ)])]⟩ 0.5).length) :=
  ⟨(C1_threshold_filter_monotone (fun _ => [(1 : ℝ)]) "q"
      ⟨"", "", [("about", [(1 : ℝ)])]⟩ 0.5 0.7 (by norm_num)).1
      ("about", ⟨1, ""⟩)
      (by rw [search_eval_1 0.5 (by norm_num)]; exact List.mem_singleton.mpr rfl),
   (C1_threshold_filter_monotone (fun _ => [(1 : ℝ)]) "q"
      ⟨"", "", [("about", [(1 : ℝ)])]⟩ 0.5 0.7 (by norm_num)).2.1
      ("about", ⟨1, ""⟩)
      (by rw [search_eval_1 0.7 (by norm_num)]; exact List.mem_singleton.mpr rfl),
   (C1_threshold_filter_monotone (fun _ => [(1 : ℝ)]) "q"
      ⟨"", "", [("about", [(1 : ℝ)])]⟩ 0.5 0.7 (by norm_num)).2.2⟩

set_option maxRecDepth 40000 in
/-- C5 as stated is false: on the blob
`"ABOUT/MISSION:\nWe build rockets"` the builder's `about` regex, which
requires the `\n\nLEADERSHIP INFORMATION` terminator, extracts the empty
string, while the Section Extractor returns the trailing text
`"We build rockets"`. -/
theorem C5_counterexample :
    builder_section_text "about" ⟨"ABOUT/MISSION:\nWe build rockets", ""⟩ ≠
      extract_section "ABOUT/MISSION:\nWe build rockets" "ABOUT/MISSION:" := by
  decide

/-- C5 (amended): the regex-based extraction of the Structured Embedding
Builder is not equivalent to the Section Extractor in general (see the
counterexample), nor for `company_description`, whose regex captures
same-line text after `"COMPANY DESCRIPTION: "` that the Section
Extractor never returns.  For the five sections `about`, `leadership`,
`jobs`, `financial` and `main_content` the two extractions agree on
every blob of the canonical §6 shape around that section: the marker's
first occurrence carries the regex literal (marker, same-line tail if
any, then a line break), and the earliest other enumerated marker after
the content start — when the pattern requires a terminator — is the
designated next heading preceded by a blank line, while for
`main_content` no enumerated marker follows. -/
theorem C5_amended_builder_extractor_agree :
    (∀ (c pc : String) (p r : Nat),
      stopShapeAt c "ABOUT/MISSION:" "ABOUT/MISSION:\n"
        "\n\nLEADERSHIP INFORMATION" p r →
      builder_section_text "about" ⟨c, pc⟩ =
        extract_section c "ABOUT/MISSION:") ∧
    (∀ (c pc : String) (p r : Nat),
      stopShapeAt c "LEADERSHIP INFORMATION:" "LEADERSHIP INFORMATION:\n"
        "\n\nJOB POSTINGS" p r →
      builder_section_text "leadership" ⟨c, pc⟩ =
        extract_section c "LEADERSHIP INFORMATION:") ∧
    (∀ (c pc : String) (p r : Nat),
      stopShapeAt c "JOB POSTINGS" "JOB POSTINGS (TECH STACK INDICATORS):\n"
        "\n\nFINANCIAL INFORMATION" p r →
      builder_section_text "jobs" ⟨c, pc⟩ =
        extract_section c "JOB POSTINGS") ∧
    (∀ (c pc : String) (p r : Nat),
      stopShapeAt c "FINANCIAL INFORMATION:" "FINANCIAL INFORMATION:\n"
        "\n\nMAIN CONTENT" p r →
      builder_section_text "financial" ⟨c, pc⟩ =
        extract_section c "FINANCIAL INFORMATION:") ∧
    (∀ (c pc : String) (p : Nat),
      endShapeAt c "MAIN CONTENT:" "MAIN CONTENT:\n" p →
      builder_section_text "main_content" ⟨c, pc⟩ =
        extract_section c "MAIN CONTENT:") := by
  refine ⟨?_, ?_, ?_, ?_, ?_⟩
  · intro c pc p r hshape
    obtain ⟨hp, hlit, hr, hj⟩ := hshape
    rw [show "ABOUT/MISSION:\n".toList =
      "ABOUT/MISSION:".toList ++ "\n".toList from by decide] at hlit hr hj
    rw [show "\n\nLEADERSHIP INFORMATION".toList =
      '\n' :: '\n' :: "LEADERSHIP INFORMATION".toList from by decide] at hr
    obtain ⟨hext, hcap⟩ := regex_extract_agree_stop (by decide) (by decide)
      (by decide) (by decide) hp hlit hr hj
    have hbst : builder_section_text "about" ⟨c, pc⟩ =
        ((capAbout c).map pyStrip).getD "" := rfl
    rw [hbst]
    unfold capAbout
    rw [show "ABOUT/MISSION:\n".toList =
      "ABOUT/MISSION:".toList ++ "\n".toList from by decide,
      show "\n\nLEADERSHIP INFORMATION".toList =
      '\n' :: '\n' :: "LEADERSHIP INFORMATION".toList from by decide, hcap]
    unfold extract_section
    rw [hext]
    rfl
  · intro c pc p r hshape
    obtain ⟨hp, hlit, hr, hj⟩ := hshape
    rw [show "LEADERSHIP INFORMATION:\n".toList =
      "LEADERSHIP INFORMATION:".toList ++ "\n".toList from by decide]
      at hlit hr hj
    rw [show "\n\nJOB POSTINGS".toList =
      '\n' :: '\n' :: "JOB POSTINGS".toList from by decide] at hr
    obtain ⟨hext, hcap⟩ := regex_extract_agree_stop (by decide) (by decide)
      (by decide) (by decide) hp hlit hr hj
    have hbst : builder_section_text "leadership" ⟨c, pc⟩ =
        ((capLead c).map pyStrip).getD "" := rfl
    rw [hbst]
    unfold capLead
    rw [show "LEADERSHIP INFORMATION:\n".toList =
      "LEADERSHIP INFORMATION:".toList ++ "\n".toList from by decide,
      show "\n\nJOB POSTINGS".toList =
      '\n' :: '\n' :: "JOB POSTINGS".toList from by decide, hcap]
    unfold extract_section
    rw [hext]
    rfl
  · intro c pc p r hshape
    obtain ⟨hp, hlit, hr, hj⟩ := hshape
    rw [show "JOB POSTINGS (TECH STACK INDICATORS):\n".toList =
      "JOB POSTINGS".toList ++ " (TECH STACK INDICATORS):\n".toList
      from by decide] at hlit hr hj
    rw [show "\n\nFINANCIAL INFORMATION".toList =
      '\n' :: '\n' :: "FINANCIAL INFORMATION".toList from by decide] at hr
    obtain ⟨hext, hcap⟩ := regex_extract_agree_stop (by decide) (by decide)
      (by decide) (by decide) hp hlit hr hj
    have hbst : builder_section_text "jobs" ⟨c, pc⟩ =
        ((capJobs c).map pyStrip).getD "" := rfl
    rw [hbst]
    unfold capJobs
    rw [show "JOB POSTINGS (TECH STACK INDICATORS):\n".toList =
      "JOB POSTINGS".toList ++ " (TECH STACK INDICATORS):\n".toList
      from by decide,
      show "\n\nFINANCIAL INFORMATION".toList =
      '\n' :: '\n' :: "FINANCIAL INFORMATION".toList from by decide, hcap]
    unfold extract_section
    rw [hext]
    rfl
  · intro c pc p r hshape
    obtain ⟨hp, hlit, hr, hj⟩ := hshape
    rw [show "FINANCIAL INFORMATION:\n".toList =
      "FINANCIAL INFORMATION:".toList ++ "\n".toList from by decide]
      at hlit hr hj
    rw [show "\n\nMAIN CONTENT".toList =
      '\n' :: '\n' :: "MAIN CONTENT".toList from by decide] at hr
    obtain ⟨hext, hcap⟩ := regex_extract_agree_stop (by decide) (by decide)
      (by decide) (by decide) hp hlit hr hj
    have hbst : builder_section_text "financial" ⟨c, pc⟩ =
        ((capFin c).map pyStrip).getD "" := rfl
    rw [hbst]
    unfold capFin
    rw [show "FINANCIAL INFORMATION:\n".toList =
      "FINANCIAL INFORMATION:".toList ++ "\n".toList from by decide,
      show "\n\nMAIN CONTENT".toList =
      '\n' :: '\n' :: "MAIN CONTENT".toList from by decide, hcap]
    unfold extract_section
    rw [hext]
    rfl
  · intro c pc p hshape
    obtain ⟨hp, hlit, hnone⟩ := hshape
    rw [show "MAIN CONTENT:\n".toList =
      "MAIN CONTENT:".toList ++ "\n".toList from by decide] at hlit hnone
    obtain ⟨hext, cap, hc1, hc2⟩ := regex_extract_agree_end (by decide)
      (by decide) (by decide) (by decide) hp hlit hnone
    have hbst : builder_section_text "main_content" ⟨c, pc⟩ =
        ((capMain c).map pyStrip).getD "" := rfl
    rw [hbst]
    unfold capMain
    rw [show "MAIN CONTENT:\n".toList =
      "MAIN CONTENT:".toList ++ "\n".toList from by decide, hc1]
    unfold extract_section
    rw [hext, ← hc2]
    rfl

set_option maxRecDepth 100000 in
theorem C5_witness :
    stopShapeAt
      "ABOUT/MISSION:\nWe care about quality and craft.\n\nLEADERSHIP INFORMATION:\nJane Doe leads the team."
      "ABOUT/MISSION:" "ABOUT/MISSION:\n" "\n\nLEADERSHIP INFORMATION" 0 47 ∧
    builder_section_text "about"
      ⟨"ABOUT/MISSION:\nWe care about quality and craft.\n\nLEADERSHIP INFORMATION:\nJane Doe leads the team.", ""⟩ =
    extract_section
      "ABOUT/MISSION:\nWe care about quality and craft.\n\nLEADERSHIP INFORMATION:\nJane Doe leads the team."
      "ABOUT/MISSION:" :=
  ⟨by decide,
   (C5_amended_builder_extractor_agree).1 _ "" 0 47 (by decide)⟩

/-- C3: each entry of the filtered result set of
`find_product_category_matches` is placed in exactly one bucket —
`high_relevance` holds scores `≥ 0.65`, `medium_relevance` scores in
`[0.5, 0.65)`, `low_relevance` scores in `[0.4, 0.5)` (every searched
entry clears the 0.4 floor) — and the three buckets together hold
exactly the entries of the underlying search at threshold 0.4. -/
theorem C3_bucket_partition (encode : String → List ℝ) (category : String)
    (cd : CompanyData) :
    (∀ e ∈ (find_product_category_matches encode category cd).high_relevance,
      0.65 ≤ e.score) ∧
    (∀ e ∈ (find_product_category_matches encode category cd).medium_relevance,
      0.5 ≤ e.score ∧ e.score < 0.65) ∧
    (∀ e ∈ (find_product_category_matches encode category cd).low_relevance,
      0.4 ≤ e.score ∧ e.score < 0.5) ∧
    (∀ p ∈ search_with_embeddings encode category cd 0.4,
      (⟨p.1, p.2.score, makeSnippet p.2.content⟩ : MatchEntry) ∈
        (find_product_category_matches encode category cd).high_relevance ∨
      (⟨p.1, p.2.score, makeSnippet p.2.content⟩ : MatchEntry) ∈
        (find_product_category_matches encode category cd).medium_relevance ∨
      (⟨p.1, p.2.score, makeSnippet p.2.content⟩ : MatchEntry) ∈
        (find_product_category_matches encode category cd).low_relevance) ∧
    ((find_product_category_matches encode category cd).high_relevance.length +
      (find_product_category_matches encode category cd).medium_relevance.length +
      (find_product_category_matches encode category cd).low_relevance.length =
      (search_with_embeddings encode category cd 0.4).length) := by
  refine ⟨?_, ?_, ?_, ?_, buckets_length_partition⟩
  · intro e he
    obtain ⟨p, hmem, hc, rfl⟩ := mem_high_iff.mp he
    exact hc
  · intro e he
    obtain ⟨p, hmem, hc, rfl⟩ := mem_medium_iff.mp he
    exact ⟨hc.2, not_le.mp hc.1⟩
  · intro e he
    obtain ⟨p, hmem, hc, rfl⟩ := mem_low_iff.mp he
    exact ⟨search_score_ge hmem, not_le.mp hc.2⟩
  · intro p hmem
    by_cases h1 : p.2.score ≥ 0.65
    · exact Or.inl (mem_high_iff.mpr ⟨p, hmem, h1, rfl⟩)
    · by_cases h2 : p.2.score ≥ 0.5
      · exact Or.inr (Or.inl (mem_medium_iff.mpr ⟨p, hmem, ⟨h1, h2⟩, rfl⟩))
      · exact Or.inr (Or.inr (mem_low_iff.mpr ⟨p, hmem, ⟨h1, h2⟩, rfl⟩))

lemma sim_pair_high : calculate_similarity [(1 : ℝ), 0] [1, 0] = 1 := by
  unfold calculate_similarity
  rw [if_neg (by simp)]
  have hd : dotL [(1 : ℝ), 0] [1, 0] = 1 := by norm_num [dotL]
  have hn : norm2 [(1 : ℝ), 0] = 1 := by
    unfold norm2
    rw [hd, Real.sqrt_one]
  rw [hd, hn]
  norm_num

lemma sim_pair_med : calculate_similarity [(1 : ℝ), 0] [3, 4] = 3 / 5 := by
  unfold calculate_similarity
  rw [if_neg (by simp)]
  have hd : dotL [(1 : ℝ), 0] [3, 4] = 3 := by norm_num [dotL]
  have hd1 : dotL [(1 : ℝ), 0] [1, 0] = 1 := by norm_num [dotL]
  have hn1 : norm2 [(1 : ℝ), 0] = 1 := by
    unfold norm2
    rw [hd1, Real.sqrt_one]
  have hd2 : dotL [(3 : ℝ), 4] [3, 4] = 25 := by norm_num [dotL]
  have hn2 : norm2 [(3 : ℝ), 4] = 5 := by
    unfold norm2
    rw [hd2, show (25 : ℝ) = 5 ^ 2 by norm_num, Real.sqrt_sq (by norm_num)]
  rw [hd, hn1, hn2]
  norm_num

lemma sim_pair_low : calculate_similarity [(1 : ℝ), 0] [36, 77] = 36 / 85 := by
  unfold calculate_similarity
  rw [if_neg (by simp)]
  have hd : dotL [(1 : ℝ), 0] [36, 77] = 36 := by norm_num [dotL]
  have hd1 : dotL [(1 : ℝ), 0] [1, 0] = 1 := by norm_num [dotL]
  have hn1 : norm2 [(1 : ℝ), 0] = 1 := by
    unfold norm2
    rw [hd1, Real.sqrt_one]
  have hd2 : dotL [(36 : ℝ), 77] [36, 77] = 7225 := by norm_num [dotL]
  have hn2 : norm2 [(36 : ℝ), 77] = 85 := by
    unfold norm2
    rw [hd2, show (7225 : ℝ) = 85 ^ 2 by norm_num, Real.sqrt_sq (by norm_num)]
  rw [hd, hn1, hn2]
  norm_num

lemma search_eval_3 (q : String) :
    search_with_embeddings (fun _ => [(1 : ℝ), 0]) q
      ⟨"", "", [("a", [(1 : ℝ), 0]), ("b", [(3 : ℝ), 4]),
        ("c", [(36 : ℝ), 77])]⟩ 0.4 =
      [("a", ⟨1, ""⟩), ("b", ⟨3 / 5, ""⟩), ("c", ⟨36 / 85, ""⟩)] := by
  unfold search_with_embeddings
  simp only [List.filterMap_cons, List.filterMap_nil]
  rw [sim_pair_high, sim_pair_med, sim_pair_low,
    if_pos (by norm_num : (1 : ℝ) ≥ 0.4),
    if_pos (by norm_num : (3 / 5 : ℝ) ≥ 0.4),
    if_pos (by norm_num : (36 / 85 : ℝ) ≥ 0.4)]
  rfl

set_option maxRecDepth 40000 in
lemma buckets_eval (q : String) :
    find_product_category_matches (fun _ => [(1 : ℝ), 0]) q
      ⟨"", "", [("a", [(1 : ℝ), 0]), ("b", [(3 : ℝ), 4]),
        ("c", [(36 : ℝ), 77])]⟩ =
      ⟨[⟨"a", 1, ""⟩], [⟨"b", 3 / 5, ""⟩], [⟨"c", 36 / 85, ""⟩]⟩ := by
  unfold find_product_category_matches
  rw [search_eval_3]
  simp only [List.filterMap_cons, List.filterMap_nil]
  rw [if_pos (by norm_num : (1 : ℝ) ≥ 0.65),
    if_neg (by norm_num : ¬ (3 / 5 : ℝ) ≥ 0.65),
    if_neg (by norm_num : ¬ (36 / 85 : ℝ) ≥ 0.65),
    if_neg ((fun h => h.1 (by norm_num)) :
      ¬ (¬ (1 : ℝ) ≥ 0.65 ∧ (1 : ℝ) ≥ 0.5)),
    if_pos ((⟨by norm_num, by norm_num⟩ :
      ¬ (3 / 5 : ℝ) ≥ 0.65 ∧ (3 / 5 : ℝ) ≥ 0.5)),
    if_neg ((fun h => absurd h.2 (by norm_num)) :
      ¬ (¬ (36 / 85 : ℝ) ≥ 0.65 ∧ (36 / 85 : ℝ) ≥ 0.5)),
    if_neg ((fun h => h.1 (by norm_num)) :
      ¬ (¬ (1 : ℝ) ≥ 0.65 ∧ ¬ (1 : ℝ) ≥ 0.5)),
    if_neg ((fun h => h.2 (by norm_num)) :
      ¬ (¬ (3 / 5 : ℝ) ≥ 0.65 ∧ ¬ (3 / 5 : ℝ) ≥ 0.5)),
    if_pos ((⟨by norm_num, by norm_num⟩ :
      ¬ (36 / 85 : ℝ) ≥ 0.65 ∧ ¬ (36 / 85 : ℝ) ≥ 0.5))]
  rfl



theorem C3_witness :
    ((0.65 : ℝ) ≤ (⟨"a", 1, ""⟩ : MatchEntry).score) ∧
    ((0.5 : ℝ) ≤ (⟨"b", 3 / 5, ""⟩ : MatchEntry).score ∧
      (⟨"b", 3 / 5, ""⟩ : MatchEntry).score < 0.65) ∧
    ((0.4 : ℝ) ≤ (⟨"c", 36 / 85, ""⟩ : MatchEntry).score ∧
      (⟨"c", 36 / 85, ""⟩ : MatchEntry).score < 0.5) ∧
    ((⟨"a", (1 : ℝ), makeSnippet ""⟩ : MatchEntry) ∈
        (find_product_category_matches (fun _ => [(1 : ℝ), 0]) "cat"
          ⟨"", "", [("a", [(1 : ℝ), 0]), ("b", [(3 : ℝ), 4]),
            ("c", [(36 : ℝ), 77])]⟩).high_relevance ∨
      (⟨"a", (1 : ℝ), makeSnippet ""⟩ : MatchEntry) ∈
        (find_product_category_matches (fun _ => [(1 : ℝ), 0]) "cat"
          ⟨"", "", [("a", [(1 : ℝ), 0]), ("b", [(3 : ℝ), 4]),
            ("c", [(36 : ℝ), 77])]⟩).medium_relevance ∨
      (⟨"a", (1 : ℝ), makeSnippet ""⟩ : MatchEntry) ∈
        (find_product_category_matches (fun _ => [(1 : ℝ), 0]) "cat"
          ⟨"", "", [("a", [(1 : ℝ), 0]), ("b", [(3 : ℝ), 4]),
            ("c", [(36 : ℝ), 77])]⟩).low_relevance) ∧
    ((find_product_category_matches (fun _ => [(1 : ℝ), 0]) "cat"
        ⟨"", "", [("a", [(1 : ℝ), 0]), ("b", [(3 : ℝ), 4]),
          ("c", [(36 : ℝ), 77])]⟩).high_relevance.length +
      (find_product_category_matches (fun _ => [(1 : ℝ), 0]) "cat"
        ⟨"", "", [("a", [(1 : ℝ), 0]), ("b", [(3 : ℝ), 4]),
          ("c", [(36 : ℝ), 77])]⟩).medium_relevance.length +
      (find_product_category_matches (fun _ => [(1 : ℝ), 0]) "cat"
        ⟨"", "", [("a", [(1 : ℝ), 0]), ("b", [(3 : ℝ), 4]),
          ("c", [(36 : ℝ), 77])]⟩).low_relevance.length =
      (search_with_embeddings (fun _ => [(1 : ℝ), 0]) "cat"
        ⟨"", "", [("a", [(1 : ℝ), 0]), ("b", [(3 : ℝ), 4]),
          ("c", [(36 : ℝ), 77])]⟩ 0.4).length) :=
  ⟨(C3_bucket_partition (fun _ => [(1 : ℝ), 0]) "cat"
      ⟨"", "", [("a", [(1 : ℝ), 0]), ("b", [(3 : ℝ), 4]),
        ("c", [(36 : ℝ), 77])]⟩).1 ⟨"a", 1, ""⟩
      (by rw [buckets_eval]; exact List.mem_singleton.mpr rfl),
   (C3_bucket_partition (fun _ => [(1 : ℝ), 0]) "cat"
      ⟨"", "", [("a", [(1 : ℝ), 0]), ("b", [(3 : ℝ), 4]),
        ("c", [(36 : ℝ), 77])]⟩).2.1 ⟨"b", 3 / 5, ""⟩
      (by rw [buckets_eval]; exact List.mem_singleton.mpr rfl),
   (C3_bucket_partition (fun _ => [(1 : ℝ), 0]) "cat"
      ⟨"", "", [("a", [(1 : ℝ), 0]), ("b", [(3 : ℝ), 4]),
        ("c", [(36 : ℝ), 77])]⟩).2.2.1 ⟨"c", 36 / 85, ""⟩
      (by rw [buckets_eval]; exact List.mem_singleton.mpr rfl),
   (C3_bucket_partition (fun _ => [(1 : ℝ), 0]) "cat"
      ⟨"", "", [("a", [(1 : ℝ), 0]), ("b", [(3 : ℝ), 4]),
        ("c", [(36 : ℝ), 77])]⟩).2.2.2.1 ("a", ⟨1, ""⟩)
      (by rw [search_eval_3]; exact List.mem_cons_self _ _),
   (C3_bucket_partition (fun _ => [(1 : ℝ), 0]) "cat"
      ⟨"", "", [("a", [(1 : ℝ), 0]), ("b", [(3 : ℝ), 4]),
        ("c", [(36 : ℝ), 77])]⟩).2.2.2.2⟩

/-- C8: every entry of `find_competitor_semantic_mentions` comes from a
section of the underlying search at threshold 0.6 (so its score is at
least 0.6, and one section may contribute several entries), and its
context is one of the trimmed sentences — obtained by replacing line
breaks with periods and splitting on periods — that is longer than 20
characters and contains one of the fixed comparison phrases
case-insensitively. -/
theorem C8_competitor_mentions_shape (encode : String → List ℝ)
    (competitor_name : String) (cd : CompanyData) :
    ∀ e ∈ find_competitor_semantic_mentions encode competitor_name cd,
      0.6 ≤ e.score ∧
      ∃ p ∈ search_with_embeddings encode
        ("companies like " ++ competitor_name ++ " or similar to " ++
          competitor_name) cd 0.6,
        e.section_name = p.1 ∧ e.score = p.2.score ∧
        e.context ∈ (mentionSentences p.2.content).map pyStrip ∧
        20 < e.context.length ∧
        (comparisonPhrases.any fun phrase =>
          strContains (pyLower e.context) phrase) = true := by
  intro e he
  obtain ⟨p, hmem, s, hs, ⟨hlen, hph⟩, rfl⟩ := mem_mentions_iff.mp he
  exact ⟨search_score_ge hmem, p, hmem, rfl, rfl, hs, hlen, hph⟩

set_option maxRecDepth 40000 in
lemma search_eval_8 (q : String) :
    search_with_embeddings (fun _ => [(1 : ℝ)]) q
      ⟨"ABOUT/MISSION:\nUnlike LegacyCorp, we offer real-time data sync for teams.",
        "", [("about", [(1 : ℝ)])]⟩ 0.6 =
      [("about",
        ⟨1, "Unlike LegacyCorp, we offer real-time data sync for teams."⟩)] := by
  unfold search_with_embeddings
  simp only [List.filterMap_cons, List.filterMap_nil]
  rw [sim_one, if_pos (by norm_num : (1 : ℝ) ≥ 0.6)]
  rw [show sectionContent
      ⟨"ABOUT/MISSION:\nUnlike LegacyCorp, we offer real-time data sync for teams.",
        "", [("about", [(1 : ℝ)])]⟩ "about" =
      "Unlike LegacyCorp, we offer real-time data sync for teams."
    from by decide]

set_option maxRecDepth 40000 in
lemma mentions_eval :
    find_competitor_semantic_mentions (fun _ => [(1 : ℝ)]) "LegacyCorp"
      ⟨"ABOUT/MISSION:\nUnlike LegacyCorp, we offer real-time data sync for teams.",
        "", [("about", [(1 : ℝ)])]⟩ =
      [⟨"about", 1,
        "Unlike LegacyCorp, we offer real-time data sync for teams"⟩] := by
  unfold find_competitor_semantic_mentions
  rw [search_eval_8]
  simp only [List.flatMap_cons, List.flatMap_nil]
  rw [show (mentionSentences
      "Unlike LegacyCorp, we offer real-time data sync for teams.").map pyStrip =
      ["Unlike LegacyCorp, we offer real-time data sync for teams", ""]
    from by decide]
  simp only [List.filterMap_cons, List.filterMap_nil]
  rw [if_pos ((⟨by decide, by decide⟩ :
      20 < ("Unlike LegacyCorp, we offer real-time data sync for teams" :
        String).length ∧
      (comparisonPhrases.any fun phrase =>
        strContains
          (pyLower "Unlike LegacyCorp, we offer real-time data sync for teams")
          phrase) = true)),
    if_neg ((fun h => absurd h.1 (by decide)) :
      ¬ (20 < ("" : String).length ∧
        (comparisonPhrases.any fun phrase =>
          strContains (pyLower "") phrase) = true))]
  rfl

set_option maxRecDepth 40000 in
theorem C8_witness :
    (0.6 : ℝ) ≤ (⟨"about", 1,
      "Unlike LegacyCorp, we offer real-time data sync for teams"⟩ :
        Mention).score :=
  ((C8_competitor_mentions_shape (fun _ => [(1 : ℝ)]) "LegacyCorp"
      ⟨"ABOUT/MISSION:\nUnlike LegacyCorp, we offer real-time data sync for teams.",
        "", [("about", [(1 : ℝ)])]⟩)
    ⟨"about", 1, "Unlike LegacyCorp, we offer real-time data sync for teams"⟩
    (by rw [mentions_eval]; exact List.mem_singleton.mpr rfl)).1

end SalesAssistant
